import Mathlib

/-!
Verification of the document-structuring and clause-classification engine of the
Legal-Document-Processor repository.

The embedding mirrors `src/pipeline/layout_parser.py` (class `LayoutParser`),
`src/pipeline/risk_assesment.py` (class `RiskAssessor`) and the legal-category
scorer `_classify_legal_category` of `src/pipeline/preprocessor.py`.

Modelling conventions:
* Python strings are embedded as `List Char` (`Str`). The texts the theorems
  evaluate are ASCII; character predicates (`\s`, `\d`, `\w`, `[a-z]`, case
  folding) are embedded with their ASCII semantics.
* Python regexes are embedded through a small backtracking engine (`Rx`,
  `runRx`) that enumerates match outcomes in Python's backtracking preference
  order (ordered alternation, greedy/lazy repetition); taking the head of the
  enumeration therefore yields exactly the match Python's `re` module picks.
  Each regex of the source is transcribed node by node into an `Rx` term, with
  the original pattern quoted in a comment next to it.
* The optional models are unavailable, the degraded mode the source documents:
  `_load_spacy_model` returned `None` (so `_extract_by_sentences` returns `[]`)
  and the `RiskAssessor` model failed to load (so `assess` runs the keyword
  fallback).  `use_layoutlm`/`document_image` enhancements are off (no image is
  passed), so `parse_structure` skips `_merge_layout_analysis`.
* Floating-point thresholds (`0.95`, `0.6`) are embedded as exact rational
  comparisons on naturals (`100*inter > 95*len`, `10*a < 6*b`); the importance
  score is computed in `ℚ`.
-/

set_option maxRecDepth 8000
set_option maxHeartbeats 4000000

namespace LDP

abbrev Str := List Char

/-- Python `\s` (ASCII range): space, tab, newline, carriage return,
vertical tab, form feed. -/
def pySpace (c : Char) : Bool :=
  c = ' ' || c = '\t' || c = '\n' || c = '\x0d' || c = '\x0b' || c = '\x0c'

/-- Python `\d` (ASCII): `'0'`-`'9'`. -/
def pyDigit (c : Char) : Bool :=
  '0' ≤ c && c ≤ '9'

def asciiUpper (c : Char) : Bool := 'A' ≤ c && c ≤ 'Z'

def asciiLower (c : Char) : Bool := 'a' ≤ c && c ≤ 'z'

def asciiLetter (c : Char) : Bool := asciiUpper c || asciiLower c

/-- Python `str.lower` on ASCII letters. -/
def pyLowerChar (c : Char) : Char :=
  if asciiUpper c then Char.ofNat (c.toNat + 32) else c

/-- Python `\w` (ASCII): letters, digits and underscore. -/
def pyWordChar (c : Char) : Bool :=
  asciiLetter c || pyDigit c || c = '_'

def pyLower (s : Str) : Str := s.map pyLowerChar

/-- Python `str.strip()` (whitespace from both ends). -/
def pyStrip (s : Str) : Str :=
  ((s.dropWhile pySpace).reverse.dropWhile pySpace).reverse

/-- Python `str.split()` with no argument: split on whitespace runs,
dropping empty pieces.  Structural recursion on a step-count that always
suffices (every step shortens the list). -/
def pySplitWsGo : Nat → Str → List Str
  | 0, _ => []
  | _ + 1, [] => []
  | fuel + 1, c :: t =>
    if pySpace c then pySplitWsGo fuel t
    else
      (c :: t.takeWhile (fun d => !pySpace d)) ::
        pySplitWsGo fuel (t.dropWhile (fun d => !pySpace d))

def pySplitWs (s : Str) : List Str := pySplitWsGo (s.length + 1) s

/-- Python substring containment `needle in haystack`. -/
def isSubstr (needle haystack : Str) : Bool :=
  (List.range (haystack.length + 1)).any fun i =>
    (haystack.drop i).take needle.length = needle

/-- Count of non-overlapping occurrences, Python `str.count` of a non-empty
needle (scan left to right, jump past each hit). -/
def countOccsGo (needle : Str) : Nat → Str → Nat
  | 0, _ => 0
  | _ + 1, [] => 0
  | fuel + 1, c :: t =>
    if needle ≠ [] ∧ (c :: t).take needle.length = needle then
      1 + countOccsGo needle fuel ((c :: t).drop needle.length)
    else countOccsGo needle fuel t

def countOccs (needle s : Str) : Nat := countOccsGo needle (s.length + 1) s

/-- Python `str.isupper()` (ASCII): at least one cased character and every
cased character is uppercase. -/
def pyIsUpper (s : Str) : Bool :=
  s.any asciiLetter && s.all (fun c => !asciiLower c)

/-- `text[a:b]` on a char list. -/
def sliceFT (s : Str) (a b : Nat) : Str := (s.take b).drop a

/-- Decimal rendering of a natural number (for the `S{n}` / `_C{n}` ids). -/
def natDigitsGo : Nat → Nat → Str
  | 0, _ => []
  | fuel + 1, n =>
    if n < 10 then [Char.ofNat (48 + n)]
    else natDigitsGo fuel (n / 10) ++ [Char.ofNat (48 + n % 10)]

def natDigits (n : Nat) : Str := natDigitsGo (n + 1) n

/-- First-occurrence deduplication of the characters of a string
(used to model the cardinality of Python `set(s)`). -/
def dedupChars : Str → Str
  | [] => []
  | c :: t => if c ∈ t then dedupChars t else c :: dedupChars t

/-- `len(set(a) & set(b))` for two char lists. -/
def charInterCard (a b : Str) : Nat :=
  ((dedupChars a).filter (fun c => decide (c ∈ b))).length

/-! ### A small backtracking regex engine

`Rx` is the abstract syntax of the regex fragment the source uses; `runRx`
enumerates the possible match continuations in exactly Python's backtracking
preference order (ordered alternation; greedy repetition tries longer first,
lazy repetition shorter first), so the head of the enumeration is the match
Python's `re` engine selects.  Anchors `^`/`$` honour the `re.MULTILINE` flag
passed to the engine; `re.DOTALL` and `re.IGNORECASE` are compiled into the
character classes of each transcribed pattern. -/

inductive Rx where
  | eps
  | cls (p : Char → Bool)
  | cat (a b : Rx)
  | alt (a b : Rx)
  | star (lazy : Bool) (a : Rx)
  | group (n : Nat) (a : Rx)
  | look (a : Rx)
  | bol
  | eol
  | eos
  | wb
deriving Inhabited

/-- One way a sub-match can proceed: the remaining suffix, the character just
before it (for `^` and `\b`), and the captures collected so far. -/
structure RxOut where
  rest : Str
  prev : Option Char
  caps : List (Nat × Str)

/-- Is there a word boundary between `prev` and the head of `rest`? -/
def atWb (prev : Option Char) (rest : Str) : Bool :=
  let pw := match prev with | none => false | some c => pyWordChar c
  let nw := match rest.head? with | none => false | some c => pyWordChar c
  pw != nw

/-- `$` semantics: at end of string, or (multiline) before any newline, or
(single-line) before a newline that is the last character. -/
def atEol (ml : Bool) (rest : Str) : Bool :=
  match rest with
  | [] => true
  | c :: t => c = '\n' && (ml || t.isEmpty)

def atBol (ml : Bool) (prev : Option Char) : Bool :=
  match prev with
  | none => true
  | some c => ml && c = '\n'

/-- One level of the engine: structural recursion over the regex, with
`deeper` supplying the next star unfolding (one unit of fuel further down).
A star body that makes no progress is not repeated (Python's empty-match
rule). -/
def runRxAux (ml : Bool) (deeper : Rx → Option Char → Str → List RxOut) :
    Rx → Option Char → Str → List RxOut
  | .eps, prev, rest => [⟨rest, prev, []⟩]
  | .cls p, _, rest =>
    match rest with
    | [] => []
    | c :: t => if p c then [⟨t, some c, []⟩] else []
  | .cat a b, prev, rest =>
    (runRxAux ml deeper a prev rest).flatMap fun o =>
      (runRxAux ml deeper b o.prev o.rest).map fun o2 =>
        ⟨o2.rest, o2.prev, o.caps ++ o2.caps⟩
  | .alt a b, prev, rest =>
    runRxAux ml deeper a prev rest ++ runRxAux ml deeper b prev rest
  | .star lz a, prev, rest =>
    let zero : List RxOut := [⟨rest, prev, []⟩]
    let more : List RxOut :=
      (runRxAux ml deeper a prev rest).flatMap fun o =>
        if o.rest.length = rest.length then []
        else
          (deeper (.star lz a) o.prev o.rest).map fun o2 =>
            ⟨o2.rest, o2.prev, o.caps ++ o2.caps⟩
    if lz then zero ++ more else more ++ zero
  | .group n a, prev, rest =>
    (runRxAux ml deeper a prev rest).map fun o =>
      ⟨o.rest, o.prev, o.caps ++ [(n, rest.take (rest.length - o.rest.length))]⟩
  | .look a, prev, rest =>
    if (runRxAux ml deeper a prev rest).isEmpty then [] else [⟨rest, prev, []⟩]
  | .bol, prev, rest => if atBol ml prev then [⟨rest, prev, []⟩] else []
  | .eol, prev, rest => if atEol ml rest then [⟨rest, prev, []⟩] else []
  | .eos, prev, rest => if rest.isEmpty then [⟨rest, prev, []⟩] else []
  | .wb, prev, rest => if atWb prev rest then [⟨rest, prev, []⟩] else []

/-- Enumerate match continuations in backtracking preference order.  `fuel`
bounds the chain of star unfoldings along one path; every unfolding consumes
at least one character, so with `fuel = rest.length + 1` no genuine match is
ever cut off. -/
def runRx (ml : Bool) : Nat → Rx → Option Char → Str → List RxOut
  | 0 => fun _ _ _ => []
  | fuel + 1 => runRxAux ml (runRx ml fuel)

/-- A resolved match: offsets, the matched text (group 0) and the captures. -/
structure RMatch where
  start : Nat
  stop : Nat
  whole : Str
  caps : List (Nat × Str)

/-- Leftmost-first scan, Python `re.finditer`: at each position take the
engine's preferred match if any, then resume after it (one character further
for a zero-width match).  The fuel argument only bounds the number of scan
steps; every step advances at least one character, so the initial fuel
`text.length + 1` used by `rxFindIter` never runs out. -/
def rxScan (ml : Bool) (r : Rx) : Nat → Nat → Option Char → Str → List RMatch
  | 0, _, _, _ => []
  | fuel + 1, i, prev, rest =>
    match runRx ml (rest.length + 1) r prev rest with
    | o :: _ =>
      let consumed := rest.length - o.rest.length
      let m : RMatch := ⟨i, i + consumed, rest.take consumed, o.caps⟩
      if consumed = 0 then
        match rest with
        | [] => [m]
        | c :: t => m :: rxScan ml r fuel (i + 1) (some c) t
      else m :: rxScan ml r fuel (i + consumed) o.prev o.rest
    | [] =>
      match rest with
      | [] => []
      | c :: t => rxScan ml r fuel (i + 1) (some c) t

/-- All matches of `r` in `text`, Python `re.finditer` / `re.findall`. -/
def rxFindIter (ml : Bool) (r : Rx) (text : Str) : List RMatch :=
  rxScan ml r (text.length + 1) 0 none text

/-- Python `re.search`: the first match, if any. -/
def rxSearch (ml : Bool) (r : Rx) (text : Str) : Option RMatch :=
  (rxFindIter ml r text).head?

def rxSearchB (ml : Bool) (r : Rx) (text : Str) : Bool :=
  (rxSearch ml r text).isSome

/-- Python `re.match`: anchored attempt at position 0. -/
def rxMatch0 (ml : Bool) (r : Rx) (text : Str) : Option RMatch :=
  match runRx ml (text.length + 1) r none text with
  | o :: _ => some ⟨0, text.length - o.rest.length,
      text.take (text.length - o.rest.length), o.caps⟩
  | [] => none

def rxMatchB (ml : Bool) (r : Rx) (text : Str) : Bool :=
  (rxMatch0 ml r text).isSome

/-- Python `re.split`: the pieces of `text` between the matches of `r`. -/
def rxSplit (ml : Bool) (r : Rx) (text : Str) : List Str :=
  let ms := rxFindIter ml r text
  let rec go (last : Nat) : List RMatch → List Str
    | [] => [text.drop last]
    | m :: rest => sliceFT text last m.start :: go m.stop rest
  go 0 ms

/-- Python `re.sub` with a constant replacement. -/
def rxSub (ml : Bool) (r : Rx) (repl : Str) (text : Str) : Str :=
  let ms := rxFindIter ml r text
  let rec go (last : Nat) : List RMatch → Str
    | [] => text.drop last
    | m :: rest => sliceFT text last m.start ++ repl ++ go m.stop rest
  go 0 ms

/-- Value of capture group `n` of a match (`''` when it did not participate). -/
def capGet (caps : List (Nat × Str)) (n : Nat) : Str :=
  match caps.find? (fun p => p.1 = n) with
  | some p => p.2
  | none => []

/-! Convenience constructors for transcribing patterns. -/

/-- A literal string, case-sensitive. -/
def Rx.lit (s : Str) : Rx :=
  s.foldr (fun c acc => .cat (.cls (fun d => d = c)) acc) .eps

/-- A literal string under `re.IGNORECASE` (ASCII folding). -/
def Rx.litI (s : Str) : Rx :=
  s.foldr (fun c acc => .cat (.cls (fun d => pyLowerChar d = pyLowerChar c)) acc) .eps

def Rx.plus (lz : Bool) (a : Rx) : Rx := .cat a (.star lz a)

def Rx.opt (lz : Bool) (a : Rx) : Rx := if lz then .alt .eps a else .alt a .eps

/-- `a{n,}` (greedy): `n` copies then a greedy star. -/
def Rx.atLeast (n : Nat) (a : Rx) : Rx :=
  (List.replicate n a).foldr .cat (.star false a)

/-- Ordered alternation of a non-empty list (first alternative preferred). -/
def Rx.alts : List Rx → Rx
  | [] => .eps
  | [r] => r
  | r :: rest => .alt r (alts rest)

/-- A single literal character. -/
def Rx.chr (c : Char) : Rx := .cls (fun d => d = c)

/-- A single literal character under `re.IGNORECASE`. -/
def Rx.chrI (c : Char) : Rx := .cls (fun d => pyLowerChar d = pyLowerChar c)

/-! ### Character classes used by the source patterns -/

def clSp : Rx := .cls pySpace
def clDigit : Rx := .cls pyDigit
def clUpper : Rx := .cls asciiUpper
/-- `.` without `re.DOTALL`. -/
def clDotNoNl : Rx := .cls (fun c => c ≠ '\n')
/-- `.` under `re.DOTALL`. -/
def clAny : Rx := .cls (fun _ => true)
/-- `[^.]`. -/
def clNotDot : Rx := .cls (fun c => c ≠ '.')
/-- `[A-Za-z\s]`. -/
def clAlphaSp : Rx := .cls (fun c => asciiLetter c || pySpace c)
/-- `[A-Z\s]`. -/
def clUpperSp : Rx := .cls (fun c => asciiUpper c || pySpace c)
/-- `[IVXLCDM]` (case-sensitive). -/
def clRoman : Rx := .cls (fun c => c ∈ ['I', 'V', 'X', 'L', 'C', 'D', 'M'])
/-- `[IVXLCDM]` under `re.IGNORECASE`. -/
def clRomanI : Rx :=
  .cls (fun c => pyLowerChar c ∈ ['i', 'v', 'x', 'l', 'c', 'd', 'm'])
/-- `[\.\s]`. -/
def clDotSp : Rx := .cls (fun c => c = '.' || pySpace c)
/-- `\w`. -/
def clW : Rx := .cls pyWordChar

/-! ### The heading patterns of `_extract_sections_enhanced`

All five are compiled with `re.MULTILINE`; the first and last also with
`re.IGNORECASE`. -/

/-- `r'^(ARTICLE|SECTION)\s+([IVXLCDM]+|\d+)[\.\s]+(.+?)$'` (M | I). -/
def rxHeadArticle : Rx :=
  .cat .bol (.cat (.group 1 (.alt (.litI "ARTICLE".data) (.litI "SECTION".data)))
    (.cat (.plus false clSp)
      (.cat (.group 2 (.alt (.plus false clRomanI) (.plus false clDigit)))
        (.cat (.plus false clDotSp)
          (.cat (.group 3 (.plus true clDotNoNl)) .eol)))))

/-- `r'^\s*(\d+)\.?\s+([A-Z][A-Za-z\s]+)\.?\s*$'` (M). -/
def rxHeadNumbered : Rx :=
  .cat .bol (.cat (.star false clSp)
    (.cat (.group 1 (.plus false clDigit))
      (.cat (.opt false (.chr '.'))
        (.cat (.plus false clSp)
          (.cat (.group 2 (.cat clUpper (.plus false clAlphaSp)))
            (.cat (.opt false (.chr '.')) (.cat (.star false clSp) .eol)))))))

/-- `r'^\s*([A-Z])\.?\s+([A-Z][A-Za-z\s]+)\.?\s*$'` (M). -/
def rxHeadLettered : Rx :=
  .cat .bol (.cat (.star false clSp)
    (.cat (.group 1 clUpper)
      (.cat (.opt false (.chr '.'))
        (.cat (.plus false clSp)
          (.cat (.group 2 (.cat clUpper (.plus false clAlphaSp)))
            (.cat (.opt false (.chr '.')) (.cat (.star false clSp) .eol)))))))

/-- `r'^([A-Z][A-Z\s]{3,})\.?\s*$'` (M). -/
def rxHeadAllCaps : Rx :=
  .cat .bol (.cat (.group 1 (.cat clUpper (.atLeast 3 clUpperSp)))
    (.cat (.opt false (.chr '.')) (.cat (.star false clSp) .eol)))

/-- `r'^(RECITALS?|BACKGROUND|PREAMBLE)\s*$'` (M | I). -/
def rxHeadRecitals : Rx :=
  .cat .bol (.cat (.group 1 (Rx.alts
      [.cat (.litI "RECITAL".data) (.opt false (.chrI 'S')),
       .litI "BACKGROUND".data, .litI "PREAMBLE".data]))
    (.cat (.star false clSp) .eol))

/-- The five heading patterns, in source order (all scanned multiline). -/
def legalHeadingPatterns : List Rx :=
  [rxHeadArticle, rxHeadNumbered, rxHeadLettered, rxHeadAllCaps, rxHeadRecitals]

/-! ### The clause patterns of `_initialize_legal_patterns` -/

structure ClausePattern where
  name : Str
  rx : Rx
  /-- whether the pattern was compiled with `re.MULTILINE` -/
  ml : Bool
  /-- number of capture groups -/
  groups : Nat
  priority : Nat
  clauseType : Str

/-- `r'^\s*(\d+)\.\s+(.+?)(?=^\s*\d+\.\s|\Z)'` (M | DOTALL). -/
def rxClNumbered : Rx :=
  .cat .bol (.cat (.star false clSp)
    (.cat (.group 1 (.plus false clDigit))
      (.cat (.chr '.')
        (.cat (.plus false clSp)
          (.cat (.group 2 (.plus true clAny))
            (.look (.alt
              (.cat .bol (.cat (.star false clSp)
                (.cat (.plus false clDigit) (.cat (.chr '.') clSp))))
              .eos)))))))

/-- `r'^\s*(\d+\.\d+)\s+(.+?)(?=^\s*\d+\.\d+\s|\Z)'` (M | DOTALL). -/
def rxClSubNumbered : Rx :=
  .cat .bol (.cat (.star false clSp)
    (.cat (.group 1 (.cat (.plus false clDigit) (.cat (.chr '.') (.plus false clDigit))))
      (.cat (.plus false clSp)
        (.cat (.group 2 (.plus true clAny))
          (.look (.alt
            (.cat .bol (.cat (.star false clSp)
              (.cat (.plus false clDigit)
                (.cat (.chr '.') (.cat (.plus false clDigit) clSp)))))
            .eos))))))

/-- `r'^\s*\(([a-z])\)\s+(.+?)(?=^\s*\([a-z]\)\s|\Z)'` (M | DOTALL). -/
def rxClLettered : Rx :=
  .cat .bol (.cat (.star false clSp)
    (.cat (.chr '(')
      (.cat (.group 1 (.cls asciiLower))
        (.cat (.chr ')')
          (.cat (.plus false clSp)
            (.cat (.group 2 (.plus true clAny))
              (.look (.alt
                (.cat .bol (.cat (.star false clSp)
                  (.cat (.chr '(') (.cat (.cls asciiLower) (.cat (.chr ')') clSp)))))
                .eos))))))))

/-- `r'^\s*([IVXLCDM]+)\.\s+(.+?)(?=^\s*[IVXLCDM]+\.\s|\Z)'` (M | DOTALL). -/
def rxClRoman : Rx :=
  .cat .bol (.cat (.star false clSp)
    (.cat (.group 1 (.plus false clRoman))
      (.cat (.chr '.')
        (.cat (.plus false clSp)
          (.cat (.group 2 (.plus true clAny))
            (.look (.alt
              (.cat .bol (.cat (.star false clSp)
                (.cat (.plus false clRoman) (.cat (.chr '.') clSp))))
              .eos)))))))

/-- `r'\bWHEREAS,?\s+(.+?)(?=\bWHEREAS\b|\bNOW,?\s+THEREFORE\b|\Z)'` (I | DOTALL). -/
def rxClWhereas : Rx :=
  .cat .wb (.cat (.litI "WHEREAS".data)
    (.cat (.opt false (.chr ','))
      (.cat (.plus false clSp)
        (.cat (.group 1 (.plus true clAny))
          (.look (Rx.alts
            [.cat .wb (.cat (.litI "WHEREAS".data) .wb),
             .cat .wb (.cat (.litI "NOW".data)
               (.cat (.opt false (.chr ','))
                 (.cat (.plus false clSp) (.cat (.litI "THEREFORE".data) .wb)))),
             .eos]))))))

/-- `r'"([^"]+)"\s+(?:means|shall mean|is defined as)\s+(.+?)(?=\.|;|\n\n)'` (I). -/
def rxClDefinition : Rx :=
  .cat (.chr '"')
    (.cat (.group 1 (.plus false (.cls (fun c => c ≠ '"'))))
      (.cat (.chr '"')
        (.cat (.plus false clSp)
          (.cat (Rx.alts
              [.litI "means".data, .litI "shall mean".data, .litI "is defined as".data])
            (.cat (.plus false clSp)
              (.cat (.group 2 (.plus true clDotNoNl))
                (.look (Rx.alts
                  [.chr '.', .chr ';', .lit "\n\n".data]))))))))

/-- `r'((?:Termination|Term)\s+[^.]*\.(?:[^.]*\.)*)'` (I). -/
def rxClTermination : Rx :=
  .group 1 (.cat (.alt (.litI "Termination".data) (.litI "Term".data))
    (.cat (.plus false clSp)
      (.cat (.star false clNotDot)
        (.cat (.chr '.')
          (.star false (.cat (.star false clNotDot) (.chr '.')))))))

/-- The seven clause patterns of `_initialize_legal_patterns`, in order. -/
def legalPatterns : List ClausePattern :=
  [⟨"numbered_clause".data, rxClNumbered, true, 2, 1, "numbered".data⟩,
   ⟨"sub_numbered".data, rxClSubNumbered, true, 2, 2, "sub_numbered".data⟩,
   ⟨"lettered".data, rxClLettered, true, 2, 3, "lettered".data⟩,
   ⟨"roman".data, rxClRoman, true, 2, 4, "roman".data⟩,
   ⟨"whereas".data, rxClWhereas, false, 1, 5, "recital".data⟩,
   ⟨"definition".data, rxClDefinition, false, 2, 6, "definition".data⟩,
   ⟨"termination".data, rxClTermination, false, 1, 7, "termination".data⟩]

/-! ### The remaining regexes of the module -/

/-- `r'\n\s*\n'` — paragraph separator. -/
def rxBlankLine : Rx :=
  .cat (.chr '\n') (.cat (.star false clSp) (.chr '\n'))

/-- `r'(?=\b(?:provided that|provided,|however,|notwithstanding|subject to)\b)'`
(I) — the zero-width split points inside a paragraph. -/
def rxContSplit : Rx :=
  .look (.cat .wb (.cat (Rx.alts
      [.litI "provided that".data, .litI "provided,".data, .litI "however,".data,
       .litI "notwithstanding".data, .litI "subject to".data]) .wb))

/-- The four legal-content indicator patterns of `_contains_legal_content`
(all searched with `re.IGNORECASE`). -/
def legalIndicatorRxs : List Rx :=
  [.cat .wb (.cat (Rx.alts
      [.litI "shall".data, .litI "will".data, .litI "must".data, .litI "may not".data,
       .litI "agree".data, .litI "covenant".data, .litI "warrant".data,
       .litI "represent".data]) .wb),
   .cat .wb (.cat (Rx.alts
      [.litI "party".data, .litI "parties".data, .litI "agreement".data,
       .litI "contract".data, .litI "terms".data, .litI "conditions".data]) .wb),
   .cat .wb (.cat (Rx.alts
      [.litI "liable".data, .litI "liability".data, .litI "damages".data,
       .litI "breach".data, .litI "violation".data, .litI "default".data]) .wb),
   .cat .wb (.cat (Rx.alts
      [.litI "terminate".data, .litI "termination".data, .litI "expire".data,
       .litI "effective".data, .litI "binding".data]) .wb)]

/-- `r'\b(?:is|are|shall|will|must|may|can|should)\b'` (I). -/
def rxVerb : Rx :=
  .cat .wb (.cat (Rx.alts
    [.litI "is".data, .litI "are".data, .litI "shall".data, .litI "will".data,
     .litI "must".data, .litI "may".data, .litI "can".data, .litI "should".data]) .wb)

/-- `r'[.!?]+'` — used for the sentence count metadata. -/
def rxSentEnd : Rx :=
  .plus false (.cls (fun c => c = '.' || c = '!' || c = '?'))

/-- The six continuation patterns of `_should_merge_clauses`
(each searched with `re.IGNORECASE`). -/
def continuationRxs : List Rx :=
  [.cat .wb (.cat (.litI "provided that".data) .wb),
   .cat .wb (.cat (.litI "however".data) .wb),
   .cat .wb (.cat (.litI "notwithstanding".data) .wb),
   .cat .wb (.cat (.litI "subject to".data) .wb),
   .cat .wb (.cat (.litI "unless".data) .wb),
   .cat .wb (.cat (.litI "except".data) .wb)]

/-- The section-start indicator patterns of `_is_section_start`, all applied
with `re.match(..., re.IGNORECASE)` (so the letter classes fold case). -/
def sectionStartRxs : List Rx :=
  [ -- r'^\d+\.'
   .cat .bol (.cat (.plus false clDigit) (.chr '.')),
   -- r'^[A-Z]\.'  (IGNORECASE: matches any ASCII letter)
   .cat .bol (.cat (.cls asciiLetter) (.chr '.')),
   -- r'^[IVXLCDM]+\.'
   .cat .bol (.cat (.plus false clRomanI) (.chr '.')),
   -- r'^(WHEREAS|NOW THEREFORE|PROVIDED|SUBJECT TO)'
   .cat .bol (.group 1 (Rx.alts
     [.litI "WHEREAS".data, .litI "NOW THEREFORE".data, .litI "PROVIDED".data,
      .litI "SUBJECT TO".data])),
   -- r'^[A-Z][A-Z\s]{5,}$'  (IGNORECASE: classes match any ASCII letter)
   .cat .bol (.cat (.cls asciiLetter)
     (.cat (.atLeast 5 (.cls (fun c => asciiLetter c || pySpace c))) .eol))]

/-- Obligation pattern `r'(\w+\s+(?:shall|must|will|agrees?\s+to)\s+[^.]+)'` (I). -/
def rxOblig1 : Rx :=
  .group 1 (.cat (.plus false clW)
    (.cat (.plus false clSp)
      (.cat (Rx.alts
          [.litI "shall".data, .litI "must".data, .litI "will".data,
           .cat (.litI "agree".data)
             (.cat (.opt false (.chrI 's'))
               (.cat (.plus false clSp) (.litI "to".data)))])
        (.cat (.plus false clSp) (.plus false clNotDot)))))

/-- Obligation pattern `r'(\w+\s+(?:is|are)\s+(?:required|obligated)\s+to\s+[^.]+)'` (I). -/
def rxOblig2 : Rx :=
  .group 1 (.cat (.plus false clW)
    (.cat (.plus false clSp)
      (.cat (.alt (.litI "is".data) (.litI "are".data))
        (.cat (.plus false clSp)
          (.cat (.alt (.litI "required".data) (.litI "obligated".data))
            (.cat (.plus false clSp)
              (.cat (.litI "to".data)
                (.cat (.plus false clSp) (.plus false clNotDot)))))))))

/-- Condition patterns of `_extract_conditions` (all I):
`r'(if\s+[^,]+,\s*[^.]+)'`, `r'(provided\s+that\s+[^.]+)'`,
`r'(subject\s+to\s+[^.]+)'`, `r'(unless\s+[^.]+)'`. -/
def conditionRxs : List Rx :=
  [.group 1 (.cat (.litI "if".data)
     (.cat (.plus false clSp)
       (.cat (.plus false (.cls (fun c => c ≠ ',')))
         (.cat (.chr ',') (.cat (.star false clSp) (.plus false clNotDot)))))),
   .group 1 (.cat (.litI "provided".data)
     (.cat (.plus false clSp)
       (.cat (.litI "that".data) (.cat (.plus false clSp) (.plus false clNotDot))))),
   .group 1 (.cat (.litI "subject".data)
     (.cat (.plus false clSp)
       (.cat (.litI "to".data) (.cat (.plus false clSp) (.plus false clNotDot))))),
   .group 1 (.cat (.litI "unless".data)
     (.cat (.plus false clSp) (.plus false clNotDot)))]

/-- Key-term patterns of `_extract_key_terms` (no flags):
`r'\$[\d,]+(?:\.\d{2})?'`, `r'\d+\s+(?:days?|months?|years?)'`, `r'\d+%'`. -/
def keyTermRxs : List Rx :=
  [.cat (.chr '$')
     (.cat (.plus false (.cls (fun c => pyDigit c || c = ',')))
       (.opt false (.cat (.chr '.') (.cat clDigit clDigit)))),
   .cat (.plus false clDigit)
     (.cat (.plus false clSp)
       (Rx.alts
         [.cat (.lit "day".data) (.opt false (.chr 's')),
          .cat (.lit "month".data) (.opt false (.chr 's')),
          .cat (.lit "year".data) (.opt false (.chr 's'))])),
   .cat (.plus false clDigit) (.chr '%')]

/-! ### Data model (`src/models/contract.py`)

Only the fields the structuring engine reads or writes are embedded; the
remaining optional pydantic fields (entities, embedding, page number, …) are
never touched by `LayoutParser` and keep their defaults throughout.  The
free-form `metadata` dicts are embedded as structures holding exactly the keys
the engine ever writes; an absent key is `none` / the `Bool` default. -/

structure ClauseMeta where
  length : Nat := 0
  source : Str := []
  sectionId : Str := []
  wordCount : Nat := 0
  sentenceCount : Nat := 0
  /-- key `legal_keywords`, written by `_classify_clauses` -/
  legalKeywords : Option (List Str) := none
  /-- key `merged`, written by `_merge_related_clauses` -/
  merged : Bool := false
  /-- key `merged_with`, written by `_merge_related_clauses` -/
  mergedWith : Option Str := none
deriving DecidableEq, Inhabited

structure Clause where
  id : Str
  text : Str
  legalCategory : Option Str := none
  riskLevel : Option Str := none
  keyTerms : List Str := []
  obligations : List Str := []
  conditions : List Str := []
  metadata : ClauseMeta := {}
deriving DecidableEq, Inhabited

structure SectionMeta where
  /-- key `parent_section` -/
  parentSection : Option Str := none
  /-- key `hierarchy_level` -/
  hierarchyLevel : Option Nat := none
  /-- key `semantic_group` -/
  semanticGroup : Option Str := none
  /-- key `semantic_score` -/
  semanticScore : Option Nat := none
deriving DecidableEq, Inhabited

structure ContractSection where
  id : Str
  title : Str
  text : Str
  clauses : List Clause := []
  level : Nat := 1
  metadata : SectionMeta := {}
  sectionType : Option Str := none
  importanceScore : Option ℚ := none
  containsObligations : Bool := false
  containsConditions : Bool := false
deriving DecidableEq, Inhabited

/-- The output of `parse_structure`; the document metadata is passed through
unchanged, so it is not embedded. -/
structure ProcessedContract where
  sections : List ContractSection
  clauses : List Clause
deriving DecidableEq

/-! ### Keyword tables -/

/-- `_initialize_clause_keywords` (10 categories, in dict order). -/
def clauseKeywords10 : List (Str × List Str) :=
  [("payment".data, ["payment".data, "compensation".data, "remuneration".data,
      "fee".data, "salary".data, "invoice".data]),
   ("termination".data, ["terminate".data, "termination".data, "expire".data,
      "expiry".data, "end".data, "conclude".data]),
   ("liability".data, ["liable".data, "liability".data, "responsible".data,
      "responsibility".data, "damages".data, "loss".data]),
   ("confidentiality".data, ["confidential".data, "confidentiality".data,
      "non-disclosure".data, "proprietary".data, "trade secret".data]),
   ("intellectual_property".data, ["copyright".data, "trademark".data,
      "patent".data, "intellectual property".data, "ip".data, "proprietary".data]),
   ("dispute_resolution".data, ["dispute".data, "arbitration".data,
      "mediation".data, "litigation".data, "court".data, "jurisdiction".data]),
   ("force_majeure".data, ["force majeure".data, "act of god".data,
      "unforeseeable".data, "beyond control".data]),
   ("governing_law".data, ["governing law".data, "jurisdiction".data,
      "applicable law".data, "laws of".data]),
   ("assignment".data, ["assign".data, "assignment".data, "transfer".data,
      "delegate".data, "succession".data]),
   ("amendment".data, ["amend".data, "amendment".data, "modify".data,
      "modification".data, "change".data, "alter".data])]

/-- The semantic groups of `_apply_semantic_grouping`, in dict order. -/
def semanticGroups : List (Str × List Str) :=
  [("contract_formation".data, ["recital".data, "background".data, "preamble".data,
      "whereas".data, "parties".data]),
   ("definitions".data, ["definition".data, "interpretation".data, "meaning".data]),
   ("core_terms".data, ["scope".data, "work".data, "service".data,
      "deliverable".data, "performance".data]),
   ("financial".data, ["payment".data, "fee".data, "cost".data, "price".data,
      "compensation".data, "invoice".data]),
   ("legal_compliance".data, ["law".data, "regulation".data, "compliance".data,
      "jurisdiction".data, "governing".data]),
   ("risk_management".data, ["liability".data, "insurance".data,
      "indemnification".data, "limitation".data]),
   ("ip_confidentiality".data, ["intellectual".data, "property".data,
      "confidential".data, "proprietary".data, "trade secret".data]),
   ("contract_management".data, ["term".data, "duration".data, "renewal".data,
      "termination".data, "amendment".data]),
   ("dispute_resolution".data, ["dispute".data, "arbitration".data,
      "mediation".data, "litigation".data]),
   ("miscellaneous".data, ["general".data, "miscellaneous".data, "other".data,
      "additional".data])]

/-- Critical importance keywords of `_calculate_section_importance`. -/
def criticalKeywords : List (Str × Nat) :=
  [("liability".data, 10), ("indemnification".data, 10), ("damages".data, 8),
   ("termination".data, 9), ("breach".data, 8), ("default".data, 8),
   ("payment".data, 7), ("compensation".data, 6), ("fee".data, 5),
   ("confidential".data, 7), ("proprietary".data, 6), ("trade secret".data, 8),
   ("intellectual property".data, 9), ("copyright".data, 6), ("patent".data, 6),
   ("governing law".data, 5), ("jurisdiction".data, 5), ("dispute".data, 6),
   ("force majeure".data, 4), ("assignment".data, 4), ("amendment".data, 3)]

/-- Moderate importance keywords of `_calculate_section_importance`. -/
def moderateKeywords : List (Str × Nat) :=
  [("performance".data, 4), ("delivery".data, 4), ("service".data, 3),
   ("warranty".data, 5), ("representation".data, 4), ("compliance".data, 5),
   ("insurance".data, 4), ("notice".data, 2), ("consent".data, 3),
   ("approval".data, 3), ("standard".data, 2), ("requirement".data, 3)]

/-- The high-risk keyword list of `RiskAssessor` (fallback init path). -/
def highRiskKeywords : List Str :=
  ["unlimited liability".data, "personal guarantee".data, "penalty".data,
   "liquidated damages".data]

/-- The medium-risk keyword list of `RiskAssessor` (fallback init path). -/
def mediumRiskKeywords : List Str :=
  ["indemnification".data, "limitation of liability".data, "attorney fees".data]

/-! ### Risk assessment (`src/pipeline/risk_assesment.py`)

The DistilBERT classifier failed to load (the degraded mode of the claims), so
`self.model`/`self.tokenizer` are `None` and `assess` takes the
`_assess_with_keywords` branch. -/

/-- `RiskAssessor._assess_with_keywords`. -/
def assessWithKeywords (text : Str) : Str :=
  let tl := pyLower text
  if highRiskKeywords.any (fun k => isSubstr k tl) then "high".data
  else if mediumRiskKeywords.any (fun k => isSubstr k tl) then "medium".data
  else "low".data

/-- `RiskAssessor.assess` with the model unavailable. -/
def riskAssess (text : Str) : Str := assessWithKeywords text

/-! ### Clause classification helpers (`layout_parser.py`) -/

/-- Number of keywords of one category found in the lowered text —
`sum(1 for keyword in keywords if keyword in text_lower)`. -/
def score10 (kws : List Str) (tl : Str) : Nat :=
  (kws.filter (fun k => isSubstr k tl)).length

/-- `_determine_clause_type`: one point per matched keyword, first maximal
category wins (Python `max` over the insertion-ordered dict), `"general"`
when no keyword matches at all. -/
def determineClauseType (text : Str) : Str :=
  let tl := pyLower text
  let scored := clauseKeywords10.filterMap fun p =>
    let s := score10 p.2 tl
    if s > 0 then some (p.1, s) else none
  match scored with
  | [] => "general".data
  | x :: xs => (xs.foldl (fun b y => if y.2 > b.2 then y else b) x).1

/-- `_extract_legal_keywords`. -/
def extractLegalKeywords (text : Str) : List Str :=
  let tl := pyLower text
  (clauseKeywords10.flatMap (fun p => p.2)).filter (fun k => isSubstr k tl)

/-- `_contains_legal_content`. -/
def containsLegalContent (text : Str) : Bool :=
  legalIndicatorRxs.any (fun r => rxSearchB false r text)

/-- `_is_valid_clause`. -/
def isValidClause (text : Str) : Bool :=
  let t := pyStrip text
  if t.length < 15 || (pySplitWs t).length < 3 then false
  else rxSearchB false rxVerb t || containsLegalContent t

/-- `re.sub(r'\s+', ' ', text)`: every maximal whitespace run becomes one
space.  Structural recursion on a step count that always suffices (every
step shortens the list). -/
def collapseWsGo : Nat → Str → Str
  | 0, _ => []
  | _ + 1, [] => []
  | fuel + 1, c :: t =>
    if pySpace c then ' ' :: collapseWsGo fuel (t.dropWhile pySpace)
    else c :: collapseWsGo fuel t

def collapseWs (s : Str) : Str := collapseWsGo (s.length + 1) s

/-- `[\d\.\(\)a-z]` under `re.IGNORECASE`: digits, dot, parens, ASCII
letters. -/
def isCleanRunChar (c : Char) : Bool :=
  pyDigit c || c = '.' || c = '(' || c = ')' || asciiLetter c

/-- `re.sub(r'^\s*[\d\.\(\)a-z]+\s*', '', text, flags=re.IGNORECASE)`.
The pattern is anchored and its three parts draw from disjoint character
classes, so the greedy match is the leading whitespace run, then the maximal
run of `[\d\.\(\)a-z]` characters (which must be non-empty for the pattern to
match at all), then the following whitespace run. -/
def stripLeadNumbering (s : Str) : Str :=
  let rest := s.dropWhile pySpace
  if (rest.takeWhile isCleanRunChar).isEmpty then s
  else (rest.dropWhile isCleanRunChar).dropWhile pySpace

/-- The final step of `_clean_clause_text`: strip, then append `'.'` when the
text is non-empty and does not already end in `.`, `!` or `?`. -/
def terminalizePunct (s : Str) : Str :=
  let t := pyStrip s
  match t.getLast? with
  | none => t
  | some c => if c = '.' || c = '!' || c = '?' then t else t ++ ['.']

/-- `_clean_clause_text`. -/
def cleanClauseText (s : Str) : Str :=
  terminalizePunct (stripLeadNumbering (collapseWs s))

/-- First-occurrence deduplication of a string list.  Python builds
`list(set(terms))`, whose order is unspecified (hash-based); this embedding
fixes the first-occurrence order.  The concrete inputs evaluated in the
theorems below produce at most one key term, where every order coincides. -/
def dedupFirst (l : List Str) : List Str := go l []
where
  go : List Str → List Str → List Str
    | [], _ => []
    | x :: t, seen => if x ∈ seen then go t seen else x :: go t (x :: seen)

/-- `_extract_key_terms`. -/
def extractKeyTerms (text : Str) : List Str :=
  dedupFirst (keyTermRxs.flatMap (fun r => (rxFindIter false r text).map (fun m => m.whole)))

/-- `_extract_obligations` (each of the two patterns has one group;
`re.findall` yields the group, then `.strip()`). -/
def extractObligations (text : Str) : List Str :=
  [rxOblig1, rxOblig2].flatMap fun r =>
    (rxFindIter false r text).map fun m => pyStrip (capGet m.caps 1)

/-- `_extract_conditions`. -/
def extractConditions (text : Str) : List Str :=
  conditionRxs.flatMap fun r =>
    (rxFindIter false r text).map fun m => pyStrip (capGet m.caps 1)

/-! ### Candidate generation and deduplication -/

/-- `' '.join(...)` of non-empty pieces. -/
def joinSp (pieces : List Str) : Str :=
  (pieces.intersperse [' ']).flatten

/-- The candidate string built from one `findall` result in
`_extract_by_patterns`: groups joined with spaces skipping empty values when
the pattern has several groups (a tuple result), else the single group. -/
def findallCandidate (p : ClausePattern) (m : RMatch) : Str :=
  if p.groups ≥ 2 then
    joinSp ((((List.range p.groups).map (fun k => capGet m.caps (k + 1)))).filter
      (fun g => g ≠ []))
  else capGet m.caps 1

/-- `_extract_by_patterns`. -/
def extractByPatterns (text : Str) : List Str :=
  legalPatterns.flatMap fun p =>
    (rxFindIter p.ml p.rx text).filterMap fun m =>
      let st := pyStrip (findallCandidate p m)
      if st.length > 10 then some st else none

/-- `_extract_by_sentences` with the spaCy model unavailable
(`self.nlp is None`): returns `[]` immediately. -/
def extractBySentences (_text : Str) : List Str := []

/-- `_extract_by_paragraphs`. -/
def extractByParagraphs (text : Str) : List Str :=
  (rxSplit false rxBlankLine text).flatMap fun para =>
    let p := pyStrip para
    if p.length > 20 && containsLegalContent p then
      ((rxSplit false rxContSplit p).map pyStrip).filter (fun sc => sc ≠ [])
    else []

/-- `re.sub(r'\W+', '', clause.lower())`: drop every non-word character. -/
def cleanAlnum (s : Str) : Str := (pyLower s).filter pyWordChar

/-- The duplicate test of `_merge_duplicate_clauses` on the cleaned forms:
`similarity > 0.95 and (len(c) < len(e)*0.6 or len(e) < len(c)*0.6)` with
`similarity = len(set(c) & set(e)) / max(len(c), len(e))`, embedded as exact
rational comparisons. -/
def isDupOf (clauseClean existingClean : Str) : Bool :=
  let inter := charInterCard clauseClean existingClean
  let mx := max clauseClean.length existingClean.length
  decide (100 * inter > 95 * mx) &&
    (decide (10 * clauseClean.length < 6 * existingClean.length) ||
     decide (10 * existingClean.length < 6 * clauseClean.length))

/-- One iteration of the `_merge_duplicate_clauses` loop. -/
def dedupStep (unique : List Str) (clause : Str) : List Str :=
  let cl := cleanAlnum clause
  if cl.length < 20 then unique
  else if unique.any (fun ex => isDupOf cl (cleanAlnum ex)) then unique
  else unique ++ [clause]

/-- `_merge_duplicate_clauses`. -/
def mergeDuplicateClauses (clauses : List Str) : List Str :=
  clauses.foldl dedupStep []

/-! ### Clause construction (`_extract_clauses_enhanced`) -/

/-- The `Clause(...)` record built for one valid candidate. -/
def mkClauseRec (clauseText : Str) (sectionId : Str) (n : Nat) : Clause :=
  { id := sectionId ++ "_C".data ++ natDigits n,
    text := cleanClauseText clauseText,
    legalCategory := some (determineClauseType clauseText),
    riskLevel := some (riskAssess clauseText),
    keyTerms := extractKeyTerms clauseText,
    obligations := extractObligations clauseText,
    conditions := extractConditions clauseText,
    metadata := { length := clauseText.length,
                  source := "enhanced_extraction".data,
                  sectionId := sectionId,
                  wordCount := (pySplitWs clauseText).length,
                  sentenceCount := (rxSplit false rxSentEnd clauseText).length } }

/-- The construction loop of `_extract_clauses_enhanced`: `clause_id` advances
only when a candidate passes `_is_valid_clause`. -/
def buildClauses (sectionId : Str) : List Str → Nat → List Clause
  | [], _ => []
  | ct :: rest, n =>
    if isValidClause ct then mkClauseRec ct sectionId n :: buildClauses sectionId rest (n + 1)
    else buildClauses sectionId rest n

/-- `_extract_clauses_enhanced`. -/
def extractClausesEnhanced (text : Str) (sectionId : Str) : List Clause :=
  let allCandidates :=
    extractByPatterns text ++ extractBySentences text ++ extractByParagraphs text
  buildClauses sectionId (mergeDuplicateClauses allCandidates) 1

/-- `_classify_clauses`, per clause: fill `legal_category` when falsy (`None`
or empty) and record the matched legal keywords in the metadata. -/
def classifyClause (c : Clause) : Clause :=
  let cat := match c.legalCategory with
    | none => some (determineClauseType c.text)
    | some s => if s.isEmpty then some (determineClauseType c.text) else some s
  { c with legalCategory := cat,
           metadata := { c.metadata with legalKeywords := some (extractLegalKeywords c.text) } }

/-! ### Clause merging (`_merge_related_clauses`) -/

/-- `_should_merge_clauses`: refuse when either text exceeds 500 characters,
else merge when any continuation pattern is found anywhere in the second
clause's text (`re.search`). -/
def shouldMergeClauses (c1 c2 : Clause) : Bool :=
  if c1.text.length > 500 || c2.text.length > 500 then false
  else continuationRxs.any (fun r => rxSearchB false r c2.text)

/-- The merged clause: only `id`, `text` and `metadata` are passed to the
`Clause` constructor, so every other field takes its model default. -/
def mkMergedClause (c1 c2 : Clause) : Clause :=
  { id := c1.id,
    text := c1.text ++ [' '] ++ c2.text,
    metadata := { c1.metadata with merged := true, mergedWith := some c2.id } }

/-- `_merge_related_clauses`: one forward pass, consuming two clauses on a
merge. -/
def mergeRelatedClauses : List Clause → List Clause
  | [] => []
  | [c] => [c]
  | c1 :: c2 :: rest =>
    if shouldMergeClauses c1 c2 then mkMergedClause c1 c2 :: mergeRelatedClauses rest
    else c1 :: mergeRelatedClauses (c2 :: rest)

/-! ### Section construction -/

/-- `_classify_section_type`. -/
def classifySectionType (title : Str) : Str :=
  let tl := pyLower title
  if isSubstr "definition".data tl then "definitions".data
  else if isSubstr "term".data tl then "terms".data
  else if isSubstr "obligation".data tl || isSubstr "duties".data tl then "obligations".data
  else if isSubstr "payment".data tl then "payment".data
  else if isSubstr "termination".data tl then "termination".data
  else "general".data

/-- `_calculate_section_importance`, computed in `ℚ` (the Python floats
`0.1`/`0.3` become `1/10`/`3/10`). -/
def calcSectionImportance (text : Str) : ℚ :=
  let tl := pyLower text
  let critScore : Nat := criticalKeywords.foldl (fun acc p =>
      if isSubstr p.1 tl then acc + p.2 * min (countOccs p.1 tl) 3 else acc) 0
  let modScore : Nat := moderateKeywords.foldl (fun acc p =>
      if isSubstr p.1 tl then acc + p.2 * min (countOccs p.1 tl) 2 else acc) 0
  let maxPossible : Nat :=
    criticalKeywords.foldl (fun acc p => acc + p.2) 0 +
      moderateKeywords.foldl (fun acc p => acc + p.2) 0
  let lengthFactor : ℚ := min ((text.length : ℚ) / 1000) 2
  let total : ℚ := ((critScore + modScore : Nat) : ℚ) * (1 + lengthFactor * (1 / 10))
  min (total / ((maxPossible : ℚ) * (3 / 10))) 1

/-- `_is_section_start` (all indicator patterns matched with
`re.IGNORECASE`; the fallback accepts short all-uppercase paragraphs). -/
def isSectionStart (paragraph : Str) : Bool :=
  sectionStartRxs.any (fun r => rxMatchB false r (pyStrip paragraph)) ||
    (paragraph.length < 100 && pyIsUpper paragraph)

/-- A mid-scan section of `_fallback_section_extraction`. -/
def mkFallbackSection (count : Nat) (txt : Str) : ContractSection :=
  { id := 'S' :: natDigits count,
    title := "Section ".data ++ natDigits count,
    text := pyStrip txt,
    clauses := [],
    sectionType := some (classifySectionType (txt.take 100)),
    importanceScore := some (calcSectionImportance txt) }

/-- One step of the paragraph loop of `_fallback_section_extraction`; the
state is `(sections, current_section_text, section_count)`. -/
def fallbackStep (st : List ContractSection × Str × Nat) (para : Str) :
    List ContractSection × Str × Nat :=
  let (secs, cur, cnt) := st
  let p := pyStrip para
  if p.length < 20 then st
  else if isSectionStart p then
    if cur ≠ [] then (secs ++ [mkFallbackSection cnt cur], p, cnt + 1)
    else (secs, p, cnt)
  else (secs, cur ++ "\n\n".data ++ p, cnt)

/-- `return sections if sections else [ContractSection(id="S1", ...)]`. -/
def fallbackFinish (text : Str) : List ContractSection → List ContractSection
  | [] => [{ id := "S1".data, title := "Complete Document".data, text := text,
             clauses := [] }]
  | s :: rest => s :: rest

/-- `_fallback_section_extraction`. -/
def fallbackSectionExtraction (text : Str) : List ContractSection :=
  let fin := (rxSplit false rxBlankLine text).foldl fallbackStep ([], [], 1)
  let secs := if fin.2.1 ≠ [] then fin.1 ++ [mkFallbackSection fin.2.2 fin.2.1] else fin.1
  fallbackFinish text secs

/-- One entry of the `section_breaks` list of `_extract_sections_enhanced`
(`pattern_type` stores which heading pattern matched; the dict never carries
a `'level'` key). -/
structure SBreak where
  start : Nat
  stop : Nat
  title : Str
  patternIdx : Nat
deriving DecidableEq, Inhabited

/-- Stable insertion keeping equal keys in encounter order. -/
def insertBreak (b : SBreak) : List SBreak → List SBreak
  | [] => [b]
  | x :: t => if b.start < x.start then b :: x :: t else x :: insertBreak b t

/-- `section_breaks.sort(key=lambda x: x['start'])` — Python's sort is
stable, as is this insertion sort (strict `<` keeps ties in input order). -/
def sortBreaks (l : List SBreak) : List SBreak :=
  l.foldl (fun acc b => insertBreak b acc) []

/-- The collected and position-sorted heading matches of
`_extract_sections_enhanced`. -/
def sectionBreaks (text : Str) : List SBreak :=
  sortBreaks (legalHeadingPatterns.enum.flatMap fun p =>
    (rxFindIter true p.2 text).map fun m =>
      ⟨m.start, m.stop, pyStrip m.whole, p.1⟩)

/-- `_create_hierarchical_sections`.  The break dicts carry no `'level'` key,
so `break_info.get('level', 1)` is always `1` and the `if level > 1` parent
search is dead: every section gets `level = 1` and
`metadata['parent_section'] = None`. -/
def createHierGo (text : Str) : List SBreak → Nat → List ContractSection
  | [], _ => []
  | b :: rest, n =>
    let endPos := match rest.head? with
      | some nb => nb.start
      | none => text.length
    let sText := pyStrip (sliceFT text b.start endPos)
    { id := 'S' :: natDigits n,
      title := b.title,
      text := sText,
      clauses := [],
      level := 1,
      sectionType := some (classifySectionType b.title),
      importanceScore := some (calcSectionImportance sText),
      metadata := { parentSection := none, hierarchyLevel := some 1 } }
      :: createHierGo text rest (n + 1)

def createHierarchicalSections (text : Str) (breaks : List SBreak) : List ContractSection :=
  createHierGo text breaks 1

/-- The per-section body of `_apply_semantic_grouping`: score each group
(3 per keyword in the title, 1 per keyword in the first 200 characters),
strictly-better replaces, starting from `('miscellaneous', 0)`. -/
def semanticBest (s : ContractSection) : Str × Nat :=
  let titleL := pyLower s.title
  let textL := pyLower (s.text.take 200)
  semanticGroups.foldl (fun best g =>
    let score := g.2.foldl (fun acc k =>
      (if isSubstr k titleL then acc + 3 else acc) +
        (if isSubstr k textL then 1 else 0)) 0
    if score > best.2 then (g.1, score) else best) ("miscellaneous".data, 0)

/-- `_apply_semantic_grouping`. -/
def applySemanticGrouping (sections : List ContractSection) : List ContractSection :=
  sections.map fun s =>
    let best := semanticBest s
    { s with metadata :=
        { s.metadata with
            semanticGroup := some best.1
            semanticScore := some best.2 } }

/-- `_extract_sections_enhanced`. -/
def extractSectionsEnhanced (text : Str) : List ContractSection :=
  let breaks := sectionBreaks text
  if breaks.isEmpty then fallbackSectionExtraction text
  else applySemanticGrouping (createHierarchicalSections text breaks)

/-- `_determine_heading_level` — the level mapping of the heading-detection
helper `_detect_headings`; nothing on the `parse_structure` path calls it. -/
def determineHeadingLevel (heading : Str) : Nat :=
  if rxMatchB false (.cat .bol (.cat (.star false clSp)
      (.alt (.litI "ARTICLE".data) (.litI "SECTION".data)))) heading then 1
  else if rxMatchB false (.cat .bol (.cat (.star false clSp)
      (.cat (.plus false clDigit) (.chr '.')))) heading then 2
  else if rxMatchB false (.cat .bol (.cat (.star false clSp)
      (.cat clUpper (.chr '.')))) heading then 3
  else if pyIsUpper heading then 1
  else 4

/-! ### `parse_structure`

Run with no document image (the LayoutLMv3 enhancement is skipped) and with
the linguistic / risk models unavailable.  The Python loop mutates the clause
objects shared between `section.clauses` and `all_clauses` when
`_classify_clauses` runs, so the sections hold the classified clauses. -/

def parseStructure (rawText : Str) : ProcessedContract :=
  let sections := extractSectionsEnhanced rawText
  let withClauses := sections.map fun s =>
    let cls := (extractClausesEnhanced s.text s.id).map classifyClause
    { s with clauses := cls,
             containsObligations := cls.any (fun c => !c.obligations.isEmpty),
             containsConditions := cls.any (fun c => !c.conditions.isEmpty) }
  let allClauses := withClauses.flatMap (fun s => s.clauses)
  ⟨withClauses, mergeRelatedClauses allClauses⟩

/-! ### The granular legal-category scorer of the preprocessor
(`TextPreprocessor._classify_legal_category`, `src/pipeline/preprocessor.py`):
~40 categories, each keyword contributing `2 × (number of words)`, best
category returned when its score is at least 2, else `"general"`. -/

def categories40 : List (Str × List Str) :=
  [("payment_terms".data, ["payment".data, "pay".data, "remuneration".data,
      "compensation".data, "fee".data, "salary".data]),
   ("payment_schedule".data, ["installment".data, "monthly".data, "quarterly".data,
      "due date".data, "payment schedule".data]),
   ("late_payment".data, ["late payment".data, "overdue".data, "penalty".data,
      "interest".data, "default interest".data]),
   ("invoice_billing".data, ["invoice".data, "billing".data, "statement".data,
      "receipt".data]),
   ("contract_formation".data, ["effective date".data, "commencement".data,
      "execution".data, "signing".data]),
   ("contract_duration".data, ["term".data, "duration".data, "period".data,
      "validity".data]),
   ("renewal_extension".data, ["renewal".data, "extension".data, "auto-renew".data,
      "rollover".data]),
   ("termination_general".data, ["terminate".data, "termination".data, "end".data,
      "conclude".data]),
   ("termination_cause".data, ["breach".data, "default".data, "violation".data,
      "material breach".data]),
   ("termination_convenience".data, ["convenience".data, "without cause".data,
      "at will".data]),
   ("liability_general".data, ["liable".data, "liability".data, "responsible".data]),
   ("liability_limitation".data, ["limitation of liability".data, "cap".data,
      "maximum liability".data]),
   ("indemnification".data, ["indemnify".data, "indemnification".data,
      "hold harmless".data]),
   ("insurance".data, ["insurance".data, "coverage".data, "policy".data,
      "insure".data]),
   ("damages".data, ["damages".data, "loss".data, "harm".data, "injury".data,
      "consequential".data]),
   ("ip_ownership".data, ["ownership".data, "title".data, "proprietary".data,
      "belong".data]),
   ("ip_license".data, ["license".data, "grant".data, "permit".data,
      "authorize".data]),
   ("copyright".data, ["copyright".data, "author".data, "work".data,
      "derivative".data]),
   ("trademark".data, ["trademark".data, "service mark".data, "brand".data,
      "logo".data]),
   ("patent".data, ["patent".data, "invention".data, "patentable".data]),
   ("trade_secrets".data, ["trade secret".data, "confidential information".data,
      "know-how".data]),
   ("confidentiality_general".data, ["confidential".data, "confidentiality".data,
      "non-disclosure".data]),
   ("data_protection".data, ["data protection".data, "privacy".data,
      "personal data".data, "gdpr".data]),
   ("non_compete".data, ["non-compete".data, "competition".data, "restraint".data]),
   ("non_solicitation".data, ["non-solicitation".data, "solicit".data,
      "employee".data, "customer".data]),
   ("performance_standards".data, ["performance".data, "standard".data,
      "quality".data, "specification".data]),
   ("delivery_terms".data, ["delivery".data, "shipment".data, "transport".data,
      "logistics".data]),
   ("acceptance_testing".data, ["acceptance".data, "testing".data,
      "inspection".data, "approval".data]),
   ("service_levels".data, ["service level".data, "sla".data, "uptime".data,
      "availability".data]),
   ("dispute_general".data, ["dispute".data, "disagreement".data, "conflict".data]),
   ("arbitration".data, ["arbitration".data, "arbitrator".data, "arbitral".data]),
   ("mediation".data, ["mediation".data, "mediator".data, "mediate".data]),
   ("litigation".data, ["litigation".data, "court".data, "lawsuit".data,
      "legal action".data]),
   ("jurisdiction_venue".data, ["jurisdiction".data, "venue".data, "forum".data,
      "competent court".data]),
   ("governing_law".data, ["governing law".data, "applicable law".data,
      "laws of".data, "governed by".data]),
   ("regulatory_compliance".data, ["compliance".data, "regulation".data,
      "regulatory".data, "statute".data]),
   ("force_majeure".data, ["force majeure".data, "act of nature".data,
      "unforeseeable".data]),
   ("severability".data, ["severability".data, "severable".data, "invalid".data,
      "unenforceable".data]),
   ("assignment_general".data, ["assign".data, "assignment".data, "transfer".data,
      "delegate".data]),
   ("assignment_restriction".data, ["not assign".data, "no assignment".data,
      "consent required".data]),
   ("succession".data, ["succession".data, "successor".data, "heir".data,
      "estate".data]),
   ("amendment".data, ["amend".data, "amendment".data, "modify".data,
      "modification".data]),
   ("waiver".data, ["waiver".data, "waive".data, "relinquish".data, "forego".data]),
   ("entire_agreement".data, ["entire agreement".data, "complete agreement".data,
      "supersede".data]),
   ("warranty_general".data, ["warranty".data, "warrant".data, "guarantee".data,
      "assure".data]),
   ("warranty_disclaimer".data, ["disclaim".data, "as is".data, "no warranty".data]),
   ("representations".data, ["represent".data, "representation".data, "state".data,
      "affirm".data])]

/-- Weighted score of one category of `_classify_legal_category`:
`2 × (number of words in the keyword)` per matched keyword. -/
def score40 (kws : List Str) (tl : Str) : Nat :=
  kws.foldl (fun acc k =>
    if isSubstr k tl then acc + 2 * (pySplitWs k).length else acc) 0

/-- `TextPreprocessor._classify_legal_category`. -/
def classifyLegalCategory (text : Str) : Str :=
  let tl := pyLower text
  let scored := categories40.filterMap fun p =>
    let s := score40 p.2 tl
    if s > 0 then some (p.1, s) else none
  match scored with
  | [] => "general".data
  | x :: xs =>
    let best := xs.foldl (fun b y => if y.2 > b.2 then y else b) x
    if best.2 ≥ 2 then best.1 else "general".data

/-! ### Concrete documents and records used by the theorems -/

/-- A two-paragraph document with no headings; the second paragraph contains
the continuation marker "unless" mid-sentence. -/
def txtBooks : Str :=
  ("The party shall keep all books of record in good order.\n\n" ++
   "The party may not allow review unless notice is given.").data

/-- A short non-empty document. -/
def txtHi : Str := "Hi.".data

/-- A document with an ARTICLE/SECTION heading followed by a numbered
heading. -/
def txtSectionParties : Str :=
  "SECTION 1. PARTIES\n1. The parties agree to cooperate fully.".data

/-- A single-paragraph document whose clause mentions a fee. -/
def txtFee : Str :=
  "A modest fee shall be payable by the party upon signing.".data

/-- The shorter candidate of the duplicate pair: 20 distinct word
characters. -/
def dupShort : Str := "abcdefghijklmnopqrst".data

/-- The longer candidate: the shorter one twice, so the shorter is an exact
substring and the two character sets coincide (Jaccard similarity 1). -/
def dupLong : Str := dupShort ++ dupShort

/-- A clause pair for the merger: the second does not begin with any
continuation marker but contains "except" mid-sentence. -/
def mergeCl1 : Clause :=
  { id := "A1".data, text := "The fee is due on the first day of each month.".data }

def mergeCl2 : Clause :=
  { id := "A2".data,
    text := "Payment is accepted in cash except by prior arrangement.".data }

/-- The legal categories `_determine_clause_type` can produce. -/
def validCategories : List Str :=
  clauseKeywords10.map (fun p => p.1) ++ ["general".data]

/-- A text containing the spec's example phrase
`"unlimited liability for all damages"`. -/
def txtUnlimited : Str :=
  "The contractor accepts unlimited liability for all damages.".data

/-- Does a text begin with one of the six continuation markers?  This is the
spec's wording of the merge condition ("the next clause's text begins with
one of the continuation markers"), stated for comparison with the code's
`re.search`-based `_should_merge_clauses`. -/
def specBeginsWithMarker (text : Str) : Bool :=
  ["provided that".data, "however".data, "notwithstanding".data,
   "subject to".data, "unless".data, "except".data].any fun m =>
    (pyLower text).take m.length = m

/-! ### Counterexamples -/

/-- C1 counterexample: on `txtBooks`, the final clause list of
`parse_structure` consists of one merged clause whose legal category and risk
level are both null — the merger builds `Clause(id, text, metadata)` only, so
the classification fields revert to `None`. -/
theorem c1_counterexample :
    (parseStructure txtBooks).clauses.map
        (fun c => (c.legalCategory, c.riskLevel, c.metadata.merged)) =
      [(none, none, true)] ∧
    (none : Option Str) ≠ some "general".data := by
  constructor
  · decide
  · decide

/-- C2 counterexample: the non-empty document `"Hi."` yields one section but
zero clauses — `parse_structure` never produces a whole-document fallback
clause. -/
theorem c2_counterexample :
    txtHi ≠ [] ∧ (parseStructure txtHi).sections.length = 1 ∧
      (parseStructure txtHi).clauses = [] := by
  refine ⟨by decide, by decide, by decide⟩

/-- C3 counterexample: `dupShort` is an exact substring of `dupLong`, their
character sets coincide (Jaccard similarity 1) and both alphanumeric forms
have at least 20 characters, yet `_merge_duplicate_clauses` retains **both**
candidates in either order — never only the longer. -/
theorem c3_counterexample :
    isSubstr dupShort dupLong = true ∧
    (dedupChars dupShort).all (fun c => decide (c ∈ dupLong)) = true ∧
    (dedupChars dupLong).all (fun c => decide (c ∈ dupShort)) = true ∧
    20 ≤ (cleanAlnum dupShort).length ∧ 20 ≤ (cleanAlnum dupLong).length ∧
    mergeDuplicateClauses [dupShort, dupLong] = [dupShort, dupLong] ∧
    mergeDuplicateClauses [dupLong, dupShort] = [dupLong, dupShort] ∧
    mergeDuplicateClauses [dupShort, dupLong] ≠ [dupLong] := by
  refine ⟨by decide, by decide, by decide, by decide, by decide, by decide,
    by decide, by decide⟩

/-- C4 counterexample: `mergeCl2` does not begin with a continuation marker
(it merely contains "except" mid-sentence), yet the merger combines the two
clauses — `_should_merge_clauses` uses `re.search`, not a prefix test. -/
theorem c4_counterexample :
    specBeginsWithMarker mergeCl2.text = false ∧
    mergeRelatedClauses [mergeCl1, mergeCl2] =
      [mkMergedClause mergeCl1 mergeCl2] ∧
    mergeRelatedClauses [mergeCl1, mergeCl2] ≠ [mergeCl1, mergeCl2] := by
  refine ⟨by decide, by decide, by decide⟩

/-- C6 counterexample: on `txtSectionParties` the first heading match spans
offsets 0–18 and the next starts at 19, so the claim predicts the first
section's text to be `strip(text[18:19]) = ""`; the code instead slices from
the heading's **start**, producing `"SECTION 1. PARTIES"` — the heading is
part of the section's text. -/
theorem c6_counterexample :
    (sectionBreaks txtSectionParties).map (fun b => (b.start, b.stop)) =
      [(0, 18), (19, 59)] ∧
    ((extractSectionsEnhanced txtSectionParties).map (fun s => s.text)).head? =
      some "SECTION 1. PARTIES".data ∧
    pyStrip (sliceFT txtSectionParties 18 19) = [] ∧
    "SECTION 1. PARTIES".data ≠ ([] : Str) := by
  refine ⟨by decide, by decide, by decide, by decide⟩

/-- C7 counterexample: the clause extracted from `txtFee` carries legal
category `"payment"`, assigned by `_determine_clause_type`'s 10-category
unit-weight scoring; the spec's weighted ~40-category scorer
(`_classify_legal_category`) yields `"payment_terms"` on the same clause
candidate — the claimed classifier is not the one used. -/
theorem c7_counterexample :
    (parseStructure txtFee).clauses.map (fun c => c.legalCategory) =
      [some "payment".data] ∧
    classifyLegalCategory txtFee = "payment_terms".data ∧
    "payment".data ≠ "payment_terms".data := by
  refine ⟨by decide, by decide, by decide⟩

/-- C9 counterexample: on the empty document the Section Builder yields one
section whose `section_type` is `None` — the final fallback constructor
passes no `section_type`, so the claimed `"general"` is absent. -/
theorem c9_counterexample :
    (extractSectionsEnhanced []).map (fun s => s.sectionType) = [none] ∧
    (none : Option Str) ≠ some "general".data := by
  refine ⟨by decide, by decide⟩

/-! ### General lemmas about the deduplication step (claim C3) -/

theorem mem_of_mem_dedupChars {c : Char} : ∀ {s : Str}, c ∈ dedupChars s → c ∈ s := by
  intro s
  induction s with
  | nil => simp [dedupChars]
  | cons d t ih =>
    simp only [dedupChars]
    by_cases hd : d ∈ t
    · simp only [if_pos hd]
      intro h
      exact List.mem_cons_of_mem _ (ih h)
    · simp only [if_neg hd, List.mem_cons]
      rintro (h | h)
      · exact .inl h
      · exact .inr (ih h)

theorem dedupChars_nodup : ∀ s : Str, (dedupChars s).Nodup := by
  intro s
  induction s with
  | nil => simp [dedupChars]
  | cons d t ih =>
    simp only [dedupChars]
    by_cases hd : d ∈ t
    · simpa [hd] using ih
    · simp only [if_neg hd, List.nodup_cons]
      exact ⟨fun h => hd (mem_of_mem_dedupChars h), ih⟩

theorem dedupChars_length_le (s : Str) : (dedupChars s).length ≤ s.length := by
  induction s with
  | nil => simp [dedupChars]
  | cons d t ih =>
    simp only [dedupChars]
    by_cases hd : d ∈ t
    · simp only [if_pos hd, List.length_cons]
      omega
    · simp only [if_neg hd, List.length_cons]
      omega

theorem charInterCard_le_left (a b : Str) : charInterCard a b ≤ a.length :=
  le_trans (List.length_filter_le _ _) (dedupChars_length_le a)

theorem charInterCard_le_right (a b : Str) : charInterCard a b ≤ b.length := by
  classical
  have hnodup : ((dedupChars a).filter (fun c => decide (c ∈ b))).Nodup :=
    (dedupChars_nodup a).filter _
  have hsub : ((dedupChars a).filter (fun c => decide (c ∈ b))).toFinset ⊆ b.toFinset := by
    intro x hx
    simp only [List.mem_toFinset, List.mem_filter, decide_eq_true_eq] at hx ⊢
    exact hx.2
  calc charInterCard a b
      = ((dedupChars a).filter (fun c => decide (c ∈ b))).toFinset.card :=
        (List.toFinset_card_of_nodup hnodup).symm
    _ ≤ b.toFinset.card := Finset.card_le_card hsub
    _ ≤ b.length := b.toFinset_card_le

/-- The drop condition of `_merge_duplicate_clauses` is unsatisfiable: the
similarity `|set(c) ∩ set(e)| / max(len c, len e)` never exceeds
`min(len c, len e) / max(len c, len e)`, which the 60%-length condition caps
strictly below 0.95. -/
theorem isDupOf_eq_false (a b : Str) : isDupOf a b = false := by
  have h1 := charInterCard_le_left a b
  have h2 := charInterCard_le_right a b
  unfold isDupOf
  by_cases hq : 10 * a.length < 6 * b.length
  · have hmax : max a.length b.length = b.length := Nat.max_eq_right (by omega)
    have hns : ¬ (100 * charInterCard a b > 95 * max a.length b.length) := by
      rw [hmax]
      omega
    simp [hns]
  · by_cases hr : 10 * b.length < 6 * a.length
    · have hmax : max a.length b.length = a.length := Nat.max_eq_left (by omega)
      have hns : ¬ (100 * charInterCard a b > 95 * max a.length b.length) := by
        rw [hmax]
        omega
      simp [hns]
    · simp [hq, hr]

theorem foldl_dedupStep (cs : List Str) : ∀ acc : List Str,
    cs.foldl dedupStep acc =
      acc ++ cs.filter (fun c => !((cleanAlnum c).length < 20 : Bool)) := by
  induction cs with
  | nil => simp
  | cons c t ih =>
    intro acc
    simp only [List.foldl_cons, List.filter_cons]
    by_cases h20 : (cleanAlnum c).length < 20
    · simp only [dedupStep, if_pos h20, ih acc]
      simp [h20]
    · have hany : (acc.any (fun ex => isDupOf (cleanAlnum c) (cleanAlnum ex))) = false := by
        rw [List.any_eq_false]
        intro ex _
        simp [isDupOf_eq_false]
      rw [show dedupStep acc c = acc ++ [c] by simp [dedupStep, h20, hany]]
      rw [ih (acc ++ [c])]
      simp [h20]

/-- C3 (amended): deduplication never drops a candidate whose
alphanumeric-only form has at least 20 characters — the similarity > 0.95
condition cannot hold together with the 60%-length condition, so
`_merge_duplicate_clauses` is exactly the under-20-characters filter.  In
particular, for a substring pair with equal character sets both candidates
are retained (see the counterexample), not only the longer. -/
theorem c3_dedup_is_length_filter (cs : List Str) :
    mergeDuplicateClauses cs =
      cs.filter (fun c => !((cleanAlnum c).length < 20 : Bool)) := by
  unfold mergeDuplicateClauses
  simpa using foldl_dedupStep cs []

/-- C9 (amended): the empty document yields exactly one section spanning the
whole (empty) text, titled "Complete Document", with empty clause list and
`section_type` left unset (`None`, not `"general"`). -/
theorem c9_empty_doc_single_section :
    extractSectionsEnhanced [] =
      [{ id := "S1".data, title := "Complete Document".data, text := [],
         clauses := [] }] := by
  decide

/-! ### General lemmas about the clause merger (claim C4) -/

theorem shouldMerge_iff (a b : Clause) :
    shouldMergeClauses a b = true ↔
      a.text.length ≤ 500 ∧ b.text.length ≤ 500 ∧
        ∃ r ∈ continuationRxs, rxSearchB false r b.text = true := by
  unfold shouldMergeClauses
  by_cases ha : a.text.length > 500
  · simp [ha]
  · by_cases hb : b.text.length > 500
    · simp [ha, hb]
    · simp [ha, hb, List.any_eq_true]
      constructor
      · intro hex
        exact ⟨by omega, by omega, by simpa using hex⟩
      · rintro ⟨-, -, hex⟩
        simpa using hex

theorem mergeRelated_pass : ∀ (l : List Clause),
    (∀ i a b, l[i]? = some a → l[i + 1]? = some b → shouldMergeClauses a b = false) →
    mergeRelatedClauses l = l
  | [], _ => rfl
  | [c], _ => rfl
  | c1 :: c2 :: rest, h => by
    have h0 : shouldMergeClauses c1 c2 = false := h 0 c1 c2 (by simp) (by simp)
    rw [mergeRelatedClauses, if_neg (by simp [h0])]
    rw [mergeRelated_pass (c2 :: rest)
      (fun i a b ha hb => h (i + 1) a b (by simpa using ha) (by simpa using hb))]

theorem mergeRelated_mem : ∀ (l : List Clause) (c : Clause),
    c ∈ mergeRelatedClauses l →
    c ∈ l ∨ ∃ i a b, l[i]? = some a ∧ l[i + 1]? = some b ∧
      shouldMergeClauses a b = true ∧ c = mkMergedClause a b
  | [], c, hc => by simp [mergeRelatedClauses] at hc
  | [d], c, hc => by
    simp only [mergeRelatedClauses, List.mem_singleton] at hc
    exact .inl (by simp [hc])
  | c1 :: c2 :: rest, c, hc => by
    rw [mergeRelatedClauses] at hc
    by_cases h : shouldMergeClauses c1 c2
    · rw [if_pos (by simp [h])] at hc
      rcases List.mem_cons.mp hc with hc | hc
      · exact .inr ⟨0, c1, c2, by simp, by simp, h, hc⟩
      · rcases mergeRelated_mem rest c hc with hmem | ⟨i, a, b, hia, hib, hs, hceq⟩
        · exact .inl (List.mem_cons_of_mem _ (List.mem_cons_of_mem _ hmem))
        · exact .inr ⟨i + 2, a, b, by simpa using hia, by simpa using hib, hs, hceq⟩
    · rw [if_neg (by simp [h])] at hc
      rcases List.mem_cons.mp hc with hc | hc
      · exact .inl (by simp [hc])
      · rcases mergeRelated_mem (c2 :: rest) c hc with hmem | ⟨i, a, b, hia, hib, hs, hceq⟩
        · exact .inl (List.mem_cons_of_mem _ hmem)
        · exact .inr ⟨i + 1, a, b, by simpa using hia, by simpa using hib, hs, hceq⟩

/-- C4 (amended): the Clause Merger works in a single left-to-right pass and
merges two **adjacent** clauses exactly when neither text exceeds 500
characters and the next clause's text **contains** one of the six
continuation markers anywhere (`re.search`), not only when it begins with
one; the merged clause carries the first clause's identifier, a list with no
mergeable adjacent pair passes through unchanged, and every output clause is
an input clause or the merge of two adjacent input clauses. -/
theorem c4_merge_on_contained_marker :
    (∀ a b : Clause,
      shouldMergeClauses a b = true ↔
        a.text.length ≤ 500 ∧ b.text.length ≤ 500 ∧
          ∃ r ∈ continuationRxs, rxSearchB false r b.text = true) ∧
    (∀ (a b : Clause) (rest : List Clause), shouldMergeClauses a b = true →
      mergeRelatedClauses (a :: b :: rest) =
        mkMergedClause a b :: mergeRelatedClauses rest) ∧
    (∀ a b : Clause, (mkMergedClause a b).id = a.id ∧
      (mkMergedClause a b).text = a.text ++ [' '] ++ b.text ∧
      (mkMergedClause a b).metadata.merged = true) ∧
    (∀ (a b : Clause) (rest : List Clause), shouldMergeClauses a b = false →
      mergeRelatedClauses (a :: b :: rest) = a :: mergeRelatedClauses (b :: rest)) ∧
    (∀ l : List Clause,
      (∀ i a b, l[i]? = some a → l[i + 1]? = some b → shouldMergeClauses a b = false) →
      mergeRelatedClauses l = l) ∧
    (∀ (l : List Clause) (c : Clause), c ∈ mergeRelatedClauses l →
      c ∈ l ∨ ∃ i a b, l[i]? = some a ∧ l[i + 1]? = some b ∧
        shouldMergeClauses a b = true ∧ c = mkMergedClause a b) := by
  refine ⟨shouldMerge_iff, ?_, ?_, ?_, mergeRelated_pass, mergeRelated_mem⟩
  · intro a b rest h
    rw [mergeRelatedClauses, if_pos (by simp [h])]
  · intro a b
    exact ⟨rfl, rfl, rfl⟩
  · intro a b rest h
    rw [mergeRelatedClauses, if_neg (by simp [h])]

/-- C4 witness: the merge equation applied to the concrete clause pair. -/
theorem c4_merge_on_contained_marker_witness :
    mergeRelatedClauses [mergeCl1, mergeCl2] =
      mkMergedClause mergeCl1 mergeCl2 :: mergeRelatedClauses [] :=
  c4_merge_on_contained_marker.2.1 mergeCl1 mergeCl2 [] (by decide)

/-! ### Coverage of the Section Builder (claim C2) -/

theorem fallbackFinish_ne_nil (text : Str) :
    ∀ secs : List ContractSection, fallbackFinish text secs ≠ []
  | [] => by simp [fallbackFinish]
  | s :: rest => by simp [fallbackFinish]

theorem fallback_ne_nil (t : Str) : fallbackSectionExtraction t ≠ [] := by
  unfold fallbackSectionExtraction
  apply fallbackFinish_ne_nil

theorem extractSections_ne_nil (t : Str) : extractSectionsEnhanced t ≠ [] := by
  unfold extractSectionsEnhanced
  by_cases hb : (sectionBreaks t).isEmpty
  · rw [if_pos hb]
    exact fallback_ne_nil t
  · rw [if_neg hb]
    rcases hbr : sectionBreaks t with _ | ⟨b, rest⟩
    · rw [hbr] at hb
      simp at hb
    · simp [applySemanticGrouping, createHierarchicalSections, createHierGo]

/-- C2 (amended): for **every** input text — empty ones included —
`parse_structure` returns at least one section; the clause list however can
be empty (see the counterexample), there is no whole-document fallback
clause. -/
theorem c2_at_least_one_section (t : Str) : (parseStructure t).sections ≠ [] := by
  have hne := extractSections_ne_nil t
  unfold parseStructure
  rcases hE : extractSectionsEnhanced t with _ | ⟨s, rest⟩
  · exact absurd hE hne
  · simp [hE]

/-! ### Flat hierarchy of the produced sections (claim C5) -/

theorem createHierGo_flat (t : Str) : ∀ (bs : List SBreak) (n : Nat)
    (s : ContractSection), s ∈ createHierGo t bs n →
    s.level = 1 ∧ s.metadata.parentSection = none
  | [], _, s, hs => by simp [createHierGo] at hs
  | b :: rest, n, s, hs => by
    rw [createHierGo] at hs
    rcases List.mem_cons.mp hs with h | h
    · subst h
      exact ⟨rfl, rfl⟩
    · exact createHierGo_flat t rest (n + 1) s h

theorem fallbackStep_flat (st : List ContractSection × Str × Nat) (para : Str)
    (h : ∀ s ∈ st.1, s.level = 1 ∧ s.metadata.parentSection = none) :
    ∀ s ∈ (fallbackStep st para).1, s.level = 1 ∧ s.metadata.parentSection = none := by
  rcases st with ⟨secs, cur, cnt⟩
  intro s hs
  unfold fallbackStep at hs
  dsimp only at hs
  split_ifs at hs
  · exact h s hs
  · rcases List.mem_append.mp hs with hm | hm
    · exact h s hm
    · rcases List.mem_singleton.mp hm with rfl
      exact ⟨rfl, rfl⟩
  · exact h s hs
  · exact h s hs

theorem fallback_foldl_flat (paras : List Str) :
    ∀ st : List ContractSection × Str × Nat,
    (∀ s ∈ st.1, s.level = 1 ∧ s.metadata.parentSection = none) →
    ∀ s ∈ (paras.foldl fallbackStep st).1,
      s.level = 1 ∧ s.metadata.parentSection = none := by
  induction paras with
  | nil => exact fun st h => h
  | cons p t ih =>
    intro st h
    exact ih (fallbackStep st p) (fallbackStep_flat st p h)

theorem fallback_flat (t : Str) :
    ∀ s ∈ fallbackSectionExtraction t, s.level = 1 ∧ s.metadata.parentSection = none := by
  have hfold := fallback_foldl_flat (rxSplit false rxBlankLine t) ([], [], 1)
    (by simp)
  intro s hs
  unfold fallbackSectionExtraction at hs
  dsimp only at hs
  set fin := List.foldl fallbackStep ([], [], 1) (rxSplit false rxBlankLine t) with hfin
  by_cases hcur : fin.2.1 ≠ []
  · rw [if_pos hcur] at hs
    rcases hl : fin.1 ++ [mkFallbackSection fin.2.2 fin.2.1] with _ | ⟨y, t2⟩
    · simp at hl
    · rw [hl] at hs
      simp only [fallbackFinish] at hs
      rw [← hl] at hs
      rcases List.mem_append.mp hs with hm | hm
      · exact hfold s hm
      · rcases List.mem_singleton.mp hm with rfl
        exact ⟨rfl, rfl⟩
  · rw [if_neg hcur] at hs
    rcases hl : fin.1 with _ | ⟨y, t2⟩
    · rw [hl] at hs
      simp only [fallbackFinish, List.mem_singleton] at hs
      subst hs
      exact ⟨rfl, rfl⟩
    · rw [hl] at hs
      simp only [fallbackFinish] at hs
      rw [← hl] at hs
      exact hfold s hs

theorem extractSections_flat (t : Str) :
    ∀ s ∈ extractSectionsEnhanced t, s.level = 1 ∧ s.metadata.parentSection = none := by
  unfold extractSectionsEnhanced
  by_cases hb : (sectionBreaks t).isEmpty
  · rw [if_pos hb]
    exact fallback_flat t
  · rw [if_neg hb]
    intro s hs
    rcases List.mem_map.mp hs with ⟨s0, hs0, rfl⟩
    have h0 := createHierGo_flat t (sectionBreaks t) 1 s0 hs0
    exact ⟨h0.1, h0.2⟩

/-- C5: the code never assigns heading-derived hierarchy levels.  On the
concrete document a SECTION heading is followed by a numbered heading, yet
both sections come out with level 1 and no parent; in general **every**
section produced by `_extract_sections_enhanced` has level 1 and a `None`
parent, because the section-break dicts never carry the `'level'` key that
`_create_hierarchical_sections` reads (`break_info.get('level', 1)`), so the
parent search is dead code.  The level mapping the claim describes exists
only in the uncalled helper `_determine_heading_level`. -/
theorem c5_levels_always_flat :
    ((extractSectionsEnhanced txtSectionParties).map
        (fun s => (s.level, s.metadata.parentSection)) = [(1, none), (1, none)]) ∧
    (∀ t : Str, (extractSectionsEnhanced t).all
      (fun s => decide (s.level = 1) && decide (s.metadata.parentSection = none)) = true) := by
  constructor
  · decide
  · intro t
    rw [List.all_eq_true]
    intro s hs
    have h := extractSections_flat t s hs
    simp [h.1, h.2]

/-! ### The keyword risk fallback (claim C8) -/

theorem riskAssess_cases (t : Str) :
    riskAssess t = "high".data ∨ riskAssess t = "medium".data ∨
      riskAssess t = "low".data := by
  unfold riskAssess assessWithKeywords
  dsimp only
  by_cases hh : (highRiskKeywords.any fun k => isSubstr k (pyLower t)) = true
  · rw [if_pos hh]
    exact .inl rfl
  · rw [if_neg (by simp [hh])]
    by_cases hm : (mediumRiskKeywords.any fun k => isSubstr k (pyLower t)) = true
    · rw [if_pos hm]
      exact .inr (.inl rfl)
    · rw [if_neg (by simp [hm])]
      exact .inr (.inr rfl)

theorem riskAssess_ne_critical (t : Str) : riskAssess t ≠ "critical".data := by
  rcases riskAssess_cases t with h | h | h <;> rw [h] <;> decide

theorem riskAssess_high_of (t : Str)
    (h : ∃ k ∈ highRiskKeywords, isSubstr k (pyLower t) = true) :
    riskAssess t = "high".data := by
  have hht : (highRiskKeywords.any fun k => isSubstr k (pyLower t)) = true :=
    List.any_eq_true.mpr (by simpa using h)
  unfold riskAssess assessWithKeywords
  simp [hht]

theorem riskAssess_medium_of (t : Str)
    (hh : ∀ k ∈ highRiskKeywords, isSubstr k (pyLower t) = false)
    (hm : ∃ k ∈ mediumRiskKeywords, isSubstr k (pyLower t) = true) :
    riskAssess t = "medium".data := by
  have hhf : (highRiskKeywords.any fun k => isSubstr k (pyLower t)) = false :=
    List.any_eq_false.mpr (fun k hk => by simp [hh k hk])
  have hmt : (mediumRiskKeywords.any fun k => isSubstr k (pyLower t)) = true :=
    List.any_eq_true.mpr (by simpa using hm)
  unfold riskAssess assessWithKeywords
  simp [hhf, hmt]

theorem riskAssess_low_of (t : Str)
    (hh : ∀ k ∈ highRiskKeywords, isSubstr k (pyLower t) = false)
    (hm : ∀ k ∈ mediumRiskKeywords, isSubstr k (pyLower t) = false) :
    riskAssess t = "low".data := by
  have hhf : (highRiskKeywords.any fun k => isSubstr k (pyLower t)) = false :=
    List.any_eq_false.mpr (fun k hk => by simp [hh k hk])
  have hmf : (mediumRiskKeywords.any fun k => isSubstr k (pyLower t)) = false :=
    List.any_eq_false.mpr (fun k hk => by simp [hm k hk])
  unfold riskAssess assessWithKeywords
  simp [hhf, hmf]

/-- C8: with the classifier model unavailable, `assess` runs the keyword
fallback and never raises: it returns "high" when the lowercased text
contains any high-risk keyword, else "medium" when it contains any
medium-risk keyword, else "low" — never "critical"; the text containing
"unlimited liability for all damages" is assessed "high". -/
theorem c8_keyword_fallback (t : Str) :
    (riskAssess t = "high".data ∨ riskAssess t = "medium".data ∨
      riskAssess t = "low".data) ∧
    riskAssess t ≠ "critical".data ∧
    ((∃ k ∈ highRiskKeywords, isSubstr k (pyLower t) = true) →
      riskAssess t = "high".data) ∧
    ((∀ k ∈ highRiskKeywords, isSubstr k (pyLower t) = false) →
      (∃ k ∈ mediumRiskKeywords, isSubstr k (pyLower t) = true) →
      riskAssess t = "medium".data) ∧
    ((∀ k ∈ highRiskKeywords, isSubstr k (pyLower t) = false) →
      (∀ k ∈ mediumRiskKeywords, isSubstr k (pyLower t) = false) →
      riskAssess t = "low".data) ∧
    riskAssess txtUnlimited = "high".data :=
  ⟨riskAssess_cases t, riskAssess_ne_critical t, riskAssess_high_of t,
    riskAssess_medium_of t, riskAssess_low_of t, by decide⟩

/-- C8 witness: the high-keyword implication applied to the example text. -/
theorem c8_keyword_fallback_witness :
    (∃ k ∈ highRiskKeywords, isSubstr k (pyLower txtUnlimited) = true) ∧
    riskAssess txtUnlimited = "high".data :=
  ⟨by decide, (c8_keyword_fallback txtUnlimited).2.2.1 (by decide)⟩

/-! ### Characterisation of the clause-type scoring (claim C7) -/

theorem foldl_best_mem (x : Str × Nat) (xs : List (Str × Nat)) :
    xs.foldl (fun b y => if y.2 > b.2 then y else b) x ∈ x :: xs := by
  induction xs generalizing x with
  | nil => simp
  | cons y t ih =>
    simp only [List.foldl_cons]
    by_cases hy : y.2 > x.2
    · rw [if_pos hy]
      exact List.mem_cons_of_mem _ (ih y)
    · rw [if_neg hy]
      rcases List.mem_cons.mp (ih x) with h | h
      · rw [h]
        exact List.mem_cons_self _ _
      · exact List.mem_cons_of_mem _ (List.mem_cons_of_mem _ h)

theorem foldl_best_ge (xs : List (Str × Nat)) : ∀ (x : Str × Nat),
    ∀ z ∈ x :: xs, z.2 ≤ (xs.foldl (fun b y => if y.2 > b.2 then y else b) x).2 := by
  induction xs with
  | nil =>
    intro x z hz
    rcases List.mem_singleton.mp hz with rfl
    simp
  | cons y t ih =>
    intro x z hz
    simp only [List.foldl_cons]
    have hx : x.2 ≤ (if y.2 > x.2 then y else x).2 := by
      by_cases h : y.2 > x.2
      · simp only [if_pos h]
        omega
      · simp [h]
    have hy : y.2 ≤ (if y.2 > x.2 then y else x).2 := by
      by_cases h : y.2 > x.2
      · simp [h]
      · simp only [if_neg h]
        omega
    have hbest := ih (if y.2 > x.2 then y else x) _ (List.mem_cons_self _ _)
    rcases List.mem_cons.mp hz with rfl | hz
    · exact le_trans hx hbest
    · rcases List.mem_cons.mp hz with rfl | hz
      · exact le_trans hy hbest
      · exact ih (if y.2 > x.2 then y else x) z (List.mem_cons_of_mem _ hz)

theorem determineClauseType_spec (u : Str) :
    (determineClauseType u = "general".data ∧
      ∀ p ∈ clauseKeywords10, score10 p.2 (pyLower u) = 0) ∨
    (∃ p ∈ clauseKeywords10, determineClauseType u = p.1 ∧
      0 < score10 p.2 (pyLower u) ∧
      ∀ q ∈ clauseKeywords10, score10 q.2 (pyLower u) ≤ score10 p.2 (pyLower u)) := by
  rcases hsc : clauseKeywords10.filterMap (fun p =>
      if score10 p.2 (pyLower u) > 0 then some (p.1, score10 p.2 (pyLower u))
      else none) with _ | ⟨x, xs⟩
  · left
    have hL : determineClauseType u = "general".data := by
      unfold determineClauseType
      dsimp only
      rw [hsc]
    refine ⟨hL, fun p hp => ?_⟩
    have hnone := List.filterMap_eq_nil_iff.mp hsc p hp
    by_cases hs : score10 p.2 (pyLower u) > 0
    · rw [if_pos hs] at hnone
      exact absurd hnone (by simp)
    · omega
  · right
    have hL : determineClauseType u =
        (xs.foldl (fun b y => if y.2 > b.2 then y else b) x).1 := by
      unfold determineClauseType
      dsimp only
      rw [hsc]
    have hmem : xs.foldl (fun b y => if y.2 > b.2 then y else b) x ∈ x :: xs :=
      foldl_best_mem x xs
    rw [← hsc] at hmem
    rcases List.mem_filterMap.mp hmem with ⟨p, hp, hf⟩
    by_cases hs : score10 p.2 (pyLower u) > 0
    · rw [if_pos hs] at hf
      have hbest : (p.1, score10 p.2 (pyLower u)) =
          xs.foldl (fun b y => if y.2 > b.2 then y else b) x := Option.some.inj hf
      refine ⟨p, hp, ?_, hs, fun q hq => ?_⟩
      · rw [hL, ← hbest]
      · by_cases hq0 : score10 q.2 (pyLower u) > 0
        · have hqmem : (q.1, score10 q.2 (pyLower u)) ∈
              clauseKeywords10.filterMap (fun p =>
                if score10 p.2 (pyLower u) > 0
                then some (p.1, score10 p.2 (pyLower u)) else none) :=
            List.mem_filterMap.mpr ⟨q, hq, by rw [if_pos hq0]⟩
          rw [hsc] at hqmem
          have hle := foldl_best_ge xs x _ hqmem
          rw [← hbest] at hle
          simpa using hle
        · omega
    · rw [if_neg hs] at hf
      exact absurd hf (by simp)

theorem buildClauses_mem (sid : Str) : ∀ (cands : List Str) (n : Nat) (c : Clause),
    c ∈ buildClauses sid cands n → ∃ ct ∈ cands, ∃ m, c = mkClauseRec ct sid m
  | [], _, c, hc => by simp [buildClauses] at hc
  | ct :: rest, n, c, hc => by
    rw [buildClauses] at hc
    by_cases hv : isValidClause ct = true
    · rw [if_pos hv] at hc
      rcases List.mem_cons.mp hc with hc | hc
      · exact ⟨ct, List.mem_cons_self _ _, n, hc⟩
      · rcases buildClauses_mem sid rest (n + 1) c hc with ⟨ct', hm, m, heq⟩
        exact ⟨ct', List.mem_cons_of_mem _ hm, m, heq⟩
    · rw [if_neg hv] at hc
      rcases buildClauses_mem sid rest n c hc with ⟨ct', hm, m, heq⟩
      exact ⟨ct', List.mem_cons_of_mem _ hm, m, heq⟩

/-- C7 (amended): every clause produced by the Clause Extractor takes its
legal category from `_determine_clause_type`'s 10-category scoring — one
point per matched keyword of `_initialize_clause_keywords` (no weighting by
phrase length), the first highest-scoring category winning as soon as its
score is positive (no ≥ 2 threshold), `"general"` only when no keyword
matches.  The ~40-category weighted scorer the claim describes lives in the
preprocessor and is not consulted (see the counterexample). -/
theorem c7_category_by_unit_scoring (t sid : Str) (c : Clause)
    (hc : c ∈ extractClausesEnhanced t sid) :
    ∃ cand, c.text = cleanClauseText cand ∧
      c.legalCategory = some (determineClauseType cand) ∧
      ((determineClauseType cand = "general".data ∧
          ∀ p ∈ clauseKeywords10, score10 p.2 (pyLower cand) = 0) ∨
        (∃ p ∈ clauseKeywords10, determineClauseType cand = p.1 ∧
          0 < score10 p.2 (pyLower cand) ∧
          ∀ q ∈ clauseKeywords10,
            score10 q.2 (pyLower cand) ≤ score10 p.2 (pyLower cand))) := by
  unfold extractClausesEnhanced at hc
  dsimp only at hc
  rcases buildClauses_mem sid _ 1 c hc with ⟨ct, _, m, rfl⟩
  exact ⟨ct, rfl, rfl, determineClauseType_spec ct⟩

/-- C7 witness: the theorem applied to the clause extracted from `txtFee`. -/
theorem c7_category_by_unit_scoring_witness :
    ∃ cand, ((extractClausesEnhanced txtFee "S1".data).getD 0 default).text =
        cleanClauseText cand ∧
      ((extractClausesEnhanced txtFee "S1".data).getD 0 default).legalCategory =
        some (determineClauseType cand) ∧
      ((determineClauseType cand = "general".data ∧
          ∀ p ∈ clauseKeywords10, score10 p.2 (pyLower cand) = 0) ∨
        (∃ p ∈ clauseKeywords10, determineClauseType cand = p.1 ∧
          0 < score10 p.2 (pyLower cand) ∧
          ∀ q ∈ clauseKeywords10,
            score10 q.2 (pyLower cand) ≤ score10 p.2 (pyLower cand))) :=
  c7_category_by_unit_scoring txtFee "S1".data
    ((extractClausesEnhanced txtFee "S1".data).getD 0 default) (by decide)

/-! ### Classification totality up to merging (claim C1) -/

theorem determineClauseType_mem_valid (u : Str) :
    determineClauseType u ∈ validCategories := by
  rcases determineClauseType_spec u with ⟨h, -⟩ | ⟨p, hp, h, -, -⟩
  · rw [h]
    unfold validCategories
    exact List.mem_append_right _ (List.mem_singleton.mpr rfl)
  · rw [h]
    unfold validCategories
    exact List.mem_append_left _ (List.mem_map.mpr ⟨p, hp, rfl⟩)

theorem validCategories_ne_nil : ∀ cat ∈ validCategories, cat ≠ [] := by decide

theorem riskAssess_mem3 (t : Str) :
    riskAssess t ∈ ["low".data, "medium".data, "high".data] := by
  rcases riskAssess_cases t with h | h | h <;> simp [h]

theorem classifyClause_fields (c : Clause) (s : Str) (hs : c.legalCategory = some s)
    (hne : s ≠ []) :
    (classifyClause c).legalCategory = some s ∧
      (classifyClause c).riskLevel = c.riskLevel := by
  have hemp : s.isEmpty = false := by
    cases s
    · exact absurd rfl hne
    · rfl
  unfold classifyClause
  rw [hs]
  dsimp only
  rw [hemp]
  exact ⟨rfl, rfl⟩

/-- C1 (amended): in the final output of `parse_structure` every clause
either carries a legal category from the fixed enumeration (a
`_initialize_clause_keywords` category or `"general"`) together with a risk
level in {low, medium, high}, **or** is a clause created by the Clause
Merger, which carries `merged: true` metadata but null legal category and
risk level (the merger constructs `Clause(id, text, metadata)` only). -/
theorem c1_classified_unless_merged (t : Str) (c : Clause)
    (hc : c ∈ (parseStructure t).clauses) :
    c.metadata.merged = true ∨
      (∃ cat, c.legalCategory = some cat ∧ cat ∈ validCategories ∧
        ∃ rl, c.riskLevel = some rl ∧
          rl ∈ ["low".data, "medium".data, "high".data]) := by
  unfold parseStructure at hc
  dsimp only at hc
  rcases mergeRelated_mem _ c hc with hmem | ⟨i, a, b, -, -, -, rfl⟩
  · right
    rcases List.mem_flatMap.mp hmem with ⟨sec, hsec, hcin⟩
    rcases List.mem_map.mp hsec with ⟨s0, hs0, rfl⟩
    dsimp only at hcin
    rcases List.mem_map.mp hcin with ⟨c0, hc0, rfl⟩
    unfold extractClausesEnhanced at hc0
    dsimp only at hc0
    rcases buildClauses_mem s0.id _ 1 c0 hc0 with ⟨ct, -, m, rfl⟩
    have hcat : (mkClauseRec ct s0.id m).legalCategory =
        some (determineClauseType ct) := rfl
    have hne : determineClauseType ct ≠ [] :=
      validCategories_ne_nil _ (determineClauseType_mem_valid ct)
    rcases classifyClause_fields _ _ hcat hne with ⟨h1, h2⟩
    refine ⟨determineClauseType ct, h1, determineClauseType_mem_valid ct,
      riskAssess ct, ?_, riskAssess_mem3 ct⟩
    rw [h2]
    rfl
  · left
    rfl

/-- C1 witness: the theorem applied to the clause `parse_structure` produces
on `txtFee`. -/
theorem c1_classified_unless_merged_witness :
    ((parseStructure txtFee).clauses.getD 0 default).metadata.merged = true ∨
      (∃ cat, ((parseStructure txtFee).clauses.getD 0 default).legalCategory =
          some cat ∧ cat ∈ validCategories ∧
        ∃ rl, ((parseStructure txtFee).clauses.getD 0 default).riskLevel =
            some rl ∧ rl ∈ ["low".data, "medium".data, "high".data]) :=
  c1_classified_unless_merged txtFee
    ((parseStructure txtFee).clauses.getD 0 default) (by decide)

/-! ### Heading-derived section spans (claim C6) -/

theorem applySemantic_texts (ss : List ContractSection) :
    (applySemanticGrouping ss).map (fun s => s.text) = ss.map (fun s => s.text) := by
  unfold applySemanticGrouping
  rw [List.map_map]
  rfl

theorem createHierGo_text (t : Str) : ∀ (bs : List SBreak) (n i : Nat) (b : SBreak),
    bs[i]? = some b →
    ((createHierGo t bs n).map (fun s => s.text))[i]? =
      some (pyStrip (sliceFT t b.start
        (match bs[i + 1]? with
         | some nb => nb.start
         | none => t.length)))
  | [], _, i, b, hb => by simp at hb
  | x :: rest, n, 0, b, hb => by
    have hx : x = b := by simpa using hb
    subst hx
    rw [createHierGo]
    rcases rest with _ | ⟨nb, rest'⟩
    · simp
    · simp
  | x :: rest, n, i + 1, b, hb => by
    rw [createHierGo]
    simp only [List.map_cons, List.getElem?_cons_succ]
    exact createHierGo_text t rest (n + 1) i b (by simpa using hb)

/-- C6 (amended): when heading patterns match, the text of the `i`-th section
spans from the **start** offset of its own heading match (heading included)
to the start offset of the next heading match — or to the end of the
document for the last section — whitespace-stripped.  The claim's variant
starting at the heading's end offset is refuted by the counterexample. -/
theorem c6_heading_section_text (t : Str) (i : Nat) (b : SBreak)
    (hb : (sectionBreaks t)[i]? = some b) :
    ((extractSectionsEnhanced t).map (fun s => s.text))[i]? =
      some (pyStrip (sliceFT t b.start
        (match (sectionBreaks t)[i + 1]? with
         | some nb => nb.start
         | none => t.length))) := by
  have hne : (sectionBreaks t).isEmpty = false := by
    rcases h : sectionBreaks t with _ | ⟨x, xs⟩
    · rw [h] at hb
      simp at hb
    · simp [h]
  unfold extractSectionsEnhanced
  rw [if_neg (by simp [hne])]
  rw [applySemantic_texts]
  unfold createHierarchicalSections
  exact createHierGo_text t (sectionBreaks t) 1 i b hb

/-- C6 witness: the span equation for the first section of
`txtSectionParties`. -/
theorem c6_heading_section_text_witness :
    ((extractSectionsEnhanced txtSectionParties).map (fun s => s.text))[0]? =
      some (pyStrip (sliceFT txtSectionParties 0 19)) := by
  have h := c6_heading_section_text txtSectionParties 0
    ⟨0, 18, "SECTION 1. PARTIES".data, 0⟩ (by decide)
  have h1 : (sectionBreaks txtSectionParties)[0 + 1]? =
      some ⟨19, 59, "1. The parties agree to cooperate fully.".data, 1⟩ := by
    decide
  rw [h1] at h
  exact h

/-! ### The clause-cleaning step (claim C10) -/

theorem collapseWsGo_fuel : ∀ (f1 : Nat) (s : Str) (f2 : Nat), s.length < f1 →
    s.length < f2 → collapseWsGo f1 s = collapseWsGo f2 s
  | 0, s, _, h1, _ => absurd h1 (by omega)
  | _ + 1, [], 0, _, h2 => absurd h2 (by omega)
  | _ + 1, [], _ + 1, _, _ => rfl
  | f1 + 1, c :: t, 0, _, h2 => absurd h2 (by omega)
  | f1 + 1, c :: t, f2 + 1, h1, h2 => by
    simp only [collapseWsGo]
    by_cases hc : pySpace c = true
    · rw [if_pos hc, if_pos hc]
      have hd : (t.dropWhile pySpace).length ≤ t.length :=
        (List.dropWhile_suffix _).length_le
      rw [collapseWsGo_fuel f1 (t.dropWhile pySpace) f2
        (by simp at h1; omega) (by simp at h2; omega)]
    · rw [if_neg (by simp [hc]), if_neg (by simp [hc])]
      rw [collapseWsGo_fuel f1 t f2 (by simp at h1; omega) (by simp at h2; omega)]

theorem collapseWs_append_of_nonspace : ∀ (x y : Str),
    (∀ c ∈ x, pySpace c = false) → collapseWs (x ++ y) = x ++ collapseWs y
  | [], y, _ => by simp [collapseWs]
  | c :: x', y, hx => by
    have hc : pySpace c = false := hx c (List.mem_cons_self _ _)
    unfold collapseWs
    simp only [List.cons_append, List.length_cons, collapseWsGo, List.append_eq]
    rw [if_neg (by simp [hc])]
    have ih := collapseWs_append_of_nonspace x' y
      (fun d hd => hx d (List.mem_cons_of_mem _ hd))
    unfold collapseWs at ih
    rw [ih]

theorem dropWhile_space_of_head (r : Str)
    (hr : r.head?.elim true (fun c => !pySpace c) = true) :
    r.dropWhile pySpace = r := by
  rcases r with _ | ⟨c, t⟩
  · rfl
  · simp only [Option.elim, List.head?] at hr
    simp [List.dropWhile, show pySpace c = false by simpa using hr]

theorem dropWhile_space_append : ∀ (ws r : Str), (∀ c ∈ ws, pySpace c = true) →
    (r.head?.elim true (fun c => !pySpace c) = true) →
    (ws ++ r).dropWhile pySpace = r
  | [], r, _, hr => by simpa using dropWhile_space_of_head r hr
  | d :: ws', r, h, hr => by
    have hd : pySpace d = true := h d (List.mem_cons_self _ _)
    simp only [List.cons_append, List.dropWhile, hd]
    exact dropWhile_space_append ws' r (fun c hc => h c (List.mem_cons_of_mem _ hc)) hr

theorem collapseWs_space_append (ws r : Str) (hws : ws ≠ [])
    (h : ∀ c ∈ ws, pySpace c = true)
    (hr : r.head?.elim true (fun c => !pySpace c) = true) :
    collapseWs (ws ++ r) = ' ' :: collapseWs r := by
  rcases ws with _ | ⟨d, ws'⟩
  · exact absurd rfl hws
  · have hd : pySpace d = true := h d (List.mem_cons_self _ _)
    unfold collapseWs
    simp only [List.cons_append, List.length_cons, collapseWsGo, List.append_eq]
    rw [if_pos hd]
    rw [dropWhile_space_append ws' r (fun c hc => h c (List.mem_cons_of_mem _ hc)) hr]
    rw [collapseWsGo_fuel ((ws' ++ r).length + 1) r (r.length + 1)
      (by simp only [List.length_append]; omega) (by omega)]

theorem cleanRun_not_space (c : Char) (h : isCleanRunChar c = true) :
    pySpace c = false := by
  cases hs : pySpace c
  · rfl
  · exfalso
    have hd : ((((c = ' ' ∨ c = '\t') ∨ c = '\n') ∨ c = '\x0d') ∨ c = '\x0b') ∨
        c = '\x0c' := by
      simpa [pySpace] using hs
    rcases hd with ((((rfl | rfl) | rfl) | rfl) | rfl) | rfl <;>
      exact absurd h (by decide)

theorem takeWhile_clean_append : ∀ (w z : Str), (∀ c ∈ w, isCleanRunChar c = true) →
    (w ++ ' ' :: z).takeWhile isCleanRunChar = w ∧
      (w ++ ' ' :: z).dropWhile isCleanRunChar = ' ' :: z
  | [], z, _ => by
    have h1 : isCleanRunChar ' ' = false := by decide
    constructor
    · simp [List.takeWhile, h1]
    · simp [List.dropWhile, h1]
  | c :: w', z, hw => by
    have hc : isCleanRunChar c = true := hw c (List.mem_cons_self _ _)
    have ih := takeWhile_clean_append w' z (fun d hd => hw d (List.mem_cons_of_mem _ hd))
    constructor
    · simp only [List.cons_append, List.takeWhile, hc, List.append_eq, ih.1]
    · simp only [List.cons_append, List.dropWhile, hc, List.append_eq, ih.2]

theorem collapseWs_head_nonspace (r : Str)
    (hr : r.head?.elim true (fun c => !pySpace c) = true) :
    (collapseWs r).head?.elim true (fun c => !pySpace c) = true := by
  rcases r with _ | ⟨c, t⟩
  · rfl
  · simp only [Option.elim, List.head?] at hr
    unfold collapseWs
    simp only [List.length_cons, collapseWsGo]
    rw [if_neg (by simpa using hr)]
    simpa using hr

/-- C10: `_clean_clause_text` deletes the clause's entire first word — for
every candidate text that begins with a non-empty run of characters from
`[\d\.\(\)a-z]` (IGNORECASE: digits, dot, parentheses, any ASCII letter)
followed by whitespace, the cleaned text is computed from the remainder
alone: the whole leading run and the following whitespace are removed, even
when the run is an ordinary word like "Payment" or "The". -/
theorem c10_clean_strips_first_word (w ws r : Str)
    (hw : w ≠ []) (hwc : ∀ c ∈ w, isCleanRunChar c = true)
    (hws : ws ≠ []) (hwss : ∀ c ∈ ws, pySpace c = true)
    (hr : r.head?.elim true (fun c => !pySpace c) = true) :
    cleanClauseText (w ++ ws ++ r) = terminalizePunct (collapseWs r) := by
  have hwns : ∀ c ∈ w, pySpace c = false := fun c hc => cleanRun_not_space c (hwc c hc)
  have hcoll : collapseWs (w ++ ws ++ r) = w ++ ' ' :: collapseWs r := by
    rw [List.append_assoc]
    rw [collapseWs_append_of_nonspace w (ws ++ r) hwns]
    rw [collapseWs_space_append ws r hws hwss hr]
  unfold cleanClauseText
  rw [hcoll]
  have hz := collapseWs_head_nonspace r hr
  have hstrip : stripLeadNumbering (w ++ ' ' :: collapseWs r) = collapseWs r := by
    rcases w with _ | ⟨c, w'⟩
    · exact absurd rfl hw
    · have hcn : pySpace c = false := hwns c (List.mem_cons_self _ _)
      rcases takeWhile_clean_append (c :: w') (collapseWs r) hwc with ⟨htw, hdw2⟩
      have hdw : ((c :: w') ++ ' ' :: collapseWs r).dropWhile pySpace =
          (c :: w') ++ ' ' :: collapseWs r := by
        simp [List.dropWhile, hcn]
      unfold stripLeadNumbering
      dsimp only
      rw [hdw, htw, hdw2]
      rw [if_neg (by simp)]
      simp only [List.dropWhile, show pySpace ' ' = true by decide]
      exact dropWhile_space_of_head _ hz
  rw [hstrip]

/-- C10 witness: cleaning a clause beginning with the ordinary word
"Payment" removes that whole word. -/
theorem c10_clean_strips_first_word_witness :
    cleanClauseText ("Payment".data ++ " ".data ++ "is due.".data) =
      terminalizePunct (collapseWs "is due.".data) :=
  c10_clean_strips_first_word "Payment".data " ".data "is due.".data
    (by decide) (by decide) (by decide) (by decide) (by decide)

end LDP
